import Mathlib

/-!
Shallow embedding of `scripts/network_log_parser.py` (class `NetworkLogParser`
and its `PATTERNS` table), together with theorems checking the repository's
specification against it.

Modelling conventions:
* a log line is a Lean `String`; text is treated at the ASCII level, so the
  Python regex classes `\w`, `\s`, `\d` are embedded as their ASCII fragments;
* every regex of `PATTERNS` is embedded as an executable matcher over
  `List Char` with Python `re` semantics (leftmost search, ordered
  alternation, greedy quantifiers with backtracking where it can matter);
* patterns compiled with `re.IGNORECASE` are matched against the lowercased
  line, with lowercase literals (equivalent for the ASCII texts involved);
* Python `float` values are embedded as exact rationals (`ℚ`); the decimal
  payloads produced by the latency / packet-loss patterns are exact in this
  model;
* `collections.Counter` / `defaultdict(int)` are embedded as
  insertion-ordered association lists, matching Python's dict iteration
  order; Python's stable `sorted` is embedded as a stable insertion sort;
* `float(...)` raising `ValueError` (which would abort the pass, there is no
  `try` in the source) is embedded as `Except Unit`.
-/

namespace NetworkLog

/-- ASCII fragment of Python's `\w` character class. -/
def isWordChar (c : Char) : Bool := c.isAlphanum || c = '_'

/-- ASCII fragment of Python's `\s` character class. -/
def isSpaceChar (c : Char) : Bool :=
  c = ' ' || c = '\t' || c = '\n' || c = '\r' || c = '\x0b' || c = '\x0c'

/-- Lowercase a character list (ASCII model of Python lowercasing for
`re.IGNORECASE` patterns). -/
def lowerL (l : List Char) : List Char := l.map Char.toLower

/-- Case-insensitive substring test: does `kw` occur anywhere in `s`?
This is `re.search` for a plain keyword under `re.IGNORECASE`. -/
def containsCI (s kw : String) : Bool :=
  (lowerL s.data).tails.any fun t => (lowerL kw.data).isPrefixOf t

/-- One-tail test for `PATTERNS["firewall_deny"]`:
`(DROP|DENY|BLOCK|REJECT|REFUSED)` with `re.IGNORECASE`, on lowercased text. -/
def denyTail (t : List Char) : Bool :=
  "drop".data.isPrefixOf t || "deny".data.isPrefixOf t ||
  "block".data.isPrefixOf t || "reject".data.isPrefixOf t ||
  "refused".data.isPrefixOf t

/-- `PATTERNS["firewall_deny"].search(line)` as a Boolean. -/
def firewall_deny (s : String) : Bool := (lowerL s.data).tails.any denyTail

/-- One-tail test for `PATTERNS["firewall_allow"]`:
`(ACCEPT|ALLOW|PERMIT)` with `re.IGNORECASE`. -/
def allowTail (t : List Char) : Bool :=
  "accept".data.isPrefixOf t || "allow".data.isPrefixOf t ||
  "permit".data.isPrefixOf t

/-- `PATTERNS["firewall_allow"].search(line)` as a Boolean. -/
def firewall_allow (s : String) : Bool := (lowerL s.data).tails.any allowTail

/-- `PATTERNS["dhcp_event"].search(line)` as a Boolean:
the seven DHCP message-type tokens, `re.IGNORECASE`. -/
def dhcp_event (s : String) : Bool :=
  (lowerL s.data).tails.any fun t =>
    "dhcpdiscover".data.isPrefixOf t || "dhcpoffer".data.isPrefixOf t ||
    "dhcprequest".data.isPrefixOf t || "dhcpack".data.isPrefixOf t ||
    "dhcpnak".data.isPrefixOf t || "dhcprelease".data.isPrefixOf t ||
    "dhcpdecline".data.isPrefixOf t

/-- Consume a literal (already-lowercased where relevant) at the head of a
character list, returning the rest. -/
def lit : List Char → List Char → Option (List Char)
  | [], t => some t
  | c :: cs, t =>
    match t with
    | [] => none
    | d :: ds => if d = c then lit cs ds else none

/-- Regex `\s+`: one or more whitespace characters, consumed greedily
(safe here: every continuation after a `\s+` in the embedded patterns starts
with a non-whitespace character). -/
def ws1 (t : List Char) : Option (List Char) :=
  match t with
  | c :: cs => if isSpaceChar c then some (cs.dropWhile isSpaceChar) else none
  | [] => none

/-- Regex `\s*`, consumed greedily (same safety remark as `ws1`). -/
def ws0 (t : List Char) : List Char := t.dropWhile isSpaceChar

/-- `no\s+servers?\s+could\s+be\s+reached` at the head of `t`. -/
def noServersTail (t : List Char) : Option (List Char) := do
  let t ← lit "no".data t
  let t ← ws1 t
  let t ← lit "server".data t
  let t ← (do let t ← lit "s".data t; ws1 t) <|> ws1 t
  let t ← lit "could".data t
  let t ← ws1 t
  let t ← lit "be".data t
  let t ← ws1 t
  lit "reached".data t

/-- `timed?\s*out` at the head of `t`, with backtracking on the optional `d`. -/
def timedOutTail (t : List Char) : Option (List Char) := do
  let t ← lit "time".data t
  (do let t2 ← lit "d".data t; lit "out".data (ws0 t2)) <|> lit "out".data (ws0 t)

/-- `resolution\s+failed` at the head of `t`. -/
def resolutionFailedTail (t : List Char) : Option (List Char) := do
  let t ← lit "resolution".data t
  let t ← ws1 t
  lit "failed".data t

/-- One-tail test for `PATTERNS["dns_failure"]`:
`(NXDOMAIN|SERVFAIL|REFUSED|no\s+servers?\s+could\s+be\s+reached|timed?\s*out|resolution\s+failed)`
with `re.IGNORECASE`. -/
def dnsFailureTail (t : List Char) : Bool :=
  "nxdomain".data.isPrefixOf t || "servfail".data.isPrefixOf t ||
  "refused".data.isPrefixOf t || (noServersTail t).isSome ||
  (timedOutTail t).isSome || (resolutionFailedTail t).isSome

/-- `PATTERNS["dns_failure"].search(line)` as a Boolean. -/
def dns_failure (s : String) : Bool := (lowerL s.data).tails.any dnsFailureTail

/-- `connection\s+(refused|reset|timed?\s*out|closed|failed)` at the head. -/
def connectionPhraseTail (t : List Char) : Option (List Char) := do
  let t ← lit "connection".data t
  let t ← ws1 t
  lit "refused".data t <|> lit "reset".data t <|> timedOutTail t <|>
    lit "closed".data t <|> lit "failed".data t

/-- `no\s+route` at the head. -/
def noRouteTail (t : List Char) : Option (List Char) := do
  let t ← lit "no".data t
  let t ← ws1 t
  lit "route".data t

/-- `link\s+down` at the head. -/
def linkDownTail (t : List Char) : Option (List Char) := do
  let t ← lit "link".data t
  let t ← ws1 t
  lit "down".data t

/-- `interface\s+down` at the head. -/
def interfaceDownTail (t : List Char) : Option (List Char) := do
  let t ← lit "interface".data t
  let t ← ws1 t
  lit "down".data t

/-- One-tail test for `PATTERNS["connection_error"]`. -/
def connErrTail (t : List Char) : Bool :=
  (connectionPhraseTail t).isSome || "unreachable".data.isPrefixOf t ||
  (noRouteTail t).isSome || (linkDownTail t).isSome ||
  (interfaceDownTail t).isSome

/-- `PATTERNS["connection_error"].search(line)` as a Boolean. -/
def connection_error (s : String) : Bool :=
  (lowerL s.data).tails.any connErrTail

/-- Character class `[a-zA-Z0-9._-]` of `PATTERNS["dns_query"]`, on
lowercased text. -/
def isDomainChar (c : Char) : Bool :=
  c.isAlpha || c.isDigit || c = '.' || c = '_' || c = '-'

/-- `\.[a-zA-Z]{2,}` would follow the domain-name run; for a Boolean search
two letters after the dot suffice (a longer run contains this). -/
def dotAlpha2 : List Char → Bool
  | '.' :: a :: b :: _ => a.isAlpha && b.isAlpha
  | _ => false

/-- Does `[a-zA-Z0-9._-]+\.[a-zA-Z]{2,}` match at the head of `t`
(some split into a nonempty domain-char run, a dot, two letters)? -/
def domainAt (t : List Char) : Bool :=
  (List.range (t.length + 1)).any fun k =>
    decide (1 ≤ k) && (t.take k).all isDomainChar && dotAlpha2 (t.drop k)

/-- `.*?` followed by the domain pattern: the domain may start at any later
position of `t` not separated from here by a newline (`.` does not match
`\n`). -/
def dotStarDomain (t : List Char) : Bool :=
  (List.range (t.length + 1)).any fun i =>
    (t.take i).all (fun c => decide (c ≠ '\n')) && domainAt (t.drop i)

/-- Rests after `(query|lookup|resolve[ds]?)` at the head of `t`, in regex
alternation/backtracking priority order. -/
def queryKwRests (t : List Char) : List (List Char) :=
  (match lit "query".data t with | some r => [r] | none => []) ++
  (match lit "lookup".data t with | some r => [r] | none => []) ++
  (match lit "resolve".data t with
   | some r =>
     match r with
     | c :: r2 => if c = 'd' || c = 's' then [r2, r] else [r]
     | [] => [r]
   | none => [])

/-- `PATTERNS["dns_query"].search(line)` as a Boolean:
`(query|lookup|resolve[ds]?)\s+.*?(?P<domain>[a-zA-Z0-9._-]+\.[a-zA-Z]{2,})`
with `re.IGNORECASE`. -/
def dns_query (s : String) : Bool :=
  (lowerL s.data).tails.any fun t =>
    (queryKwRests t).any fun r =>
      match ws1 r with
      | some r2 => dotStarDomain r2
      | none => false

/-- `[=: ]+` consumed greedily (safe: the continuation is `\d`, never one of
`=`, `:`, space), requiring at least one separator character. -/
def sepRun (t : List Char) : Option (List Char) :=
  match t with
  | c :: cs =>
    if c = '=' || c = ':' || c = ' ' then
      some (cs.dropWhile fun d => d = '=' || d = ':' || d = ' ')
    else none
  | [] => none

/-- Rests after the port-label alternation
`(?:SPT|SRC_PORT|sport|srcport|DPT|DST_PORT|dport|dstport)` (lowercased), in
alternation order. -/
def portLabelRests (t : List Char) : List (List Char) :=
  ["spt", "src_port", "sport", "srcport", "dpt", "dst_port", "dport",
   "dstport"].filterMap fun kw => lit kw.data t

/-- Try `PATTERNS["port"]` at the head of `t`: label, `[=: ]+`, then the
group `\d{1,5}` taken greedily. Returns the port digits and the rest of the
text after the match. -/
def portAt (t : List Char) : Option (List Char × List Char) :=
  (portLabelRests t).findSome? fun r =>
    (sepRun r).bind fun r2 =>
      let ds := r2.takeWhile Char.isDigit
      if ds.isEmpty then none
      else some (ds.take 5, r2.drop (min ds.length 5))

/-- Scanner for `PATTERNS["port"].finditer(line)`: non-overlapping matches,
scanning left to right, resuming after each match. `fuel` bounds recursion
by the text length. -/
def portFindAllAux : Nat → List Char → List String
  | 0, _ => []
  | _ + 1, [] => []
  | fuel + 1, t =>
    match portAt t with
    | some (p, rest) => String.mk p :: portFindAllAux fuel rest
    | none =>
      match t with
      | [] => []
      | _ :: cs => portFindAllAux fuel cs

/-- All port groups found on a (lowercased) line, in order. -/
def portFindAll (t : List Char) : List String :=
  portFindAllAux t.length t

/-- `\d{1,3}\.` : a 1–3 digit octet followed by a dot. The greedy run with
backtracking succeeds exactly when the full leading digit run has length
1–3 and a dot follows it. Returns (consumed chars, rest). -/
def octetDot (t : List Char) : Option (List Char × List Char) :=
  let ds := t.takeWhile Char.isDigit
  if decide (1 ≤ ds.length) && decide (ds.length ≤ 3) then
    match t.drop ds.length with
    | '.' :: r => some (ds ++ ['.'], r)
    | _ => none
  else none

/-- `PATTERNS["ip_address"]` body at the head of `t`:
`\d{1,3}\.\d{1,3}\.\d{1,3}\.\d{1,3}` followed by the trailing `\b`
(next char absent or not a word char). Returns (matched IP, rest). -/
def ipAt (t : List Char) : Option (List Char × List Char) := do
  let (o1, t1) ← octetDot t
  let (o2, t2) ← octetDot t1
  let (o3, t3) ← octetDot t2
  let ds := t3.takeWhile Char.isDigit
  let rest := t3.drop ds.length
  if decide (1 ≤ ds.length) && decide (ds.length ≤ 3) &&
     (match rest with | [] => true | c :: _ => !isWordChar c) then
    some (o1 ++ o2 ++ o3 ++ ds, rest)
  else none

/-- Scanner for `PATTERNS["ip_address"].finditer/findall`: tracks the
previous character for the leading `\b` (the first matched char is a digit,
so the boundary holds iff there is no previous char or it is not a word
char). After a match the previous char is a digit, covered by `some '0'`. -/
def ipFindAllAux : Nat → Option Char → List Char → List String
  | 0, _, _ => []
  | _ + 1, _, [] => []
  | fuel + 1, prev, t =>
    if (match prev with | none => true | some p => !isWordChar p) then
      match ipAt t with
      | some (ip, rest) => String.mk ip :: ipFindAllAux fuel (some '0') rest
      | none =>
        match t with
        | [] => []
        | c :: cs => ipFindAllAux fuel (some c) cs
    else
      match t with
      | [] => []
      | c :: cs => ipFindAllAux fuel (some c) cs

/-- `PATTERNS["ip_address"].findall(line)` (group strings, in order). -/
def ipFindAll (t : List Char) : List String :=
  ipFindAllAux t.length none t

/-- Candidate (payload, rest) splits for the group `\d+\.?\d*` at the head
of `t`, in greedy-backtracking priority order: the integer run shrinks from
maximal to one digit; with the dot (when present) before without; the
fractional run shrinks from maximal to empty. -/
def numCandidates (t : List Char) : List (List Char × List Char) :=
  let ds := t.takeWhile Char.isDigit
  let L := ds.length
  if L = 0 then []
  else
    (List.range L).flatMap fun i =>
      let k := L - i
      let afterInt := t.drop k
      match afterInt with
      | '.' :: r =>
        let fs := r.takeWhile Char.isDigit
        let M := fs.length
        ((List.range (M + 1)).map fun j =>
          let m := M - j
          (ds.take k ++ '.' :: fs.take m, r.drop m)) ++ [(ds.take k, afterInt)]
      | _ =>
        (List.range (L - k + 1)).map fun j =>
          let m := L - k - j
          (ds.take (k + m), t.drop (k + m))

/-- Rests after `(?:time|latency|rtt|delay)` (lowercased), in order. -/
def latencyKwRests (t : List Char) : List (List Char) :=
  ["time", "latency", "rtt", "delay"].filterMap fun kw => lit kw.data t

/-- `PATTERNS["latency"]` at the head of `t`:
`(?:time|latency|rtt|delay)[=: ]+(?P<ms>\d+\.?\d*)\s*ms`; returns the `ms`
group. -/
def latencyAt (t : List Char) : Option String :=
  (latencyKwRests t).findSome? fun r =>
    (sepRun r).bind fun r2 =>
      (numCandidates r2).findSome? fun pr =>
        if (lit "ms".data (ws0 pr.2)).isSome then some (String.mk pr.1)
        else none

/-- `PATTERNS["latency"].search(line)`: the `ms` group of the leftmost
match, if any. -/
def latencySearch (s : String) : Option String :=
  (lowerL s.data).tails.findSome? latencyAt

/-- Continuation `%?\s*(?:packet\s+)?loss` of the packet-loss pattern,
with backtracking on the two optional pieces. -/
def lossContinuation (t : List Char) : Bool :=
  let afterPercent := fun (r : List Char) =>
    let r2 := ws0 r
    ((do
        let r3 ← lit "packet".data r2
        let r4 ← ws1 r3
        lit "loss".data r4) <|> lit "loss".data r2).isSome
  match t with
  | '%' :: r => afterPercent r || afterPercent t
  | _ => afterPercent t

/-- `PATTERNS["packet_loss"]` at the head of `t`:
`(?P<loss>\d+\.?\d*)%?\s*(?:packet\s+)?loss`; returns the `loss` group. -/
def lossAt (t : List Char) : Option String :=
  (numCandidates t).findSome? fun pr =>
    if lossContinuation pr.2 then some (String.mk pr.1) else none

/-- `PATTERNS["packet_loss"].search(line)`. -/
def packetLossSearch (s : String) : Option String :=
  (lowerL s.data).tails.findSome? lossAt

/-- `PATTERNS["timestamp_iso"]` at the head of `t`:
`\d{4}-\d{2}-\d{2}[T ]\d{2}:\d{2}:\d{2}`; returns the matched text. -/
def isoAt : List Char → Option (List Char)
  | y1 :: y2 :: y3 :: y4 :: '-' :: m1 :: m2 :: '-' :: d1 :: d2 :: sep ::
      h1 :: h2 :: ':' :: n1 :: n2 :: ':' :: s1 :: s2 :: _ =>
    if y1.isDigit && y2.isDigit && y3.isDigit && y4.isDigit &&
       m1.isDigit && m2.isDigit && d1.isDigit && d2.isDigit &&
       (sep = 'T' || sep = ' ') && h1.isDigit && h2.isDigit &&
       n1.isDigit && n2.isDigit && s1.isDigit && s2.isDigit then
      some [y1, y2, y3, y4, '-', m1, m2, '-', d1, d2, sep,
            h1, h2, ':', n1, n2, ':', s1, s2]
    else none
  | _ => none

/-- `PATTERNS["timestamp_iso"].search(line)`: the timestamp group of the
leftmost match (case-sensitive pattern, searched on the original text). -/
def timestamp_iso (s : String) : Option String :=
  (s.data.tails.findSome? isoAt).map String.mk

/-- `\d{2}:\d{2}:\d{2}` at the head of `t` (used by the syslog timestamp);
returns the eight matched chars. -/
def timePart : List Char → Option (List Char)
  | h1 :: h2 :: ':' :: m1 :: m2 :: ':' :: s1 :: s2 :: _ =>
    if h1.isDigit && h2.isDigit && m1.isDigit && m2.isDigit &&
       s1.isDigit && s2.isDigit then
      some [h1, h2, ':', m1, m2, ':', s1, s2]
    else none
  | _ => none

/-- First (greedy) alternative for the day of the syslog timestamp: a
two-digit day, then `\s+\d{2}:\d{2}:\d{2}`. -/
def dayTime2 (r : List Char) : Option (List Char) :=
  match r with
  | d1 :: d2 :: rest =>
    if d1.isDigit && d2.isDigit then
      if (rest.takeWhile isSpaceChar).isEmpty then none
      else (timePart (rest.dropWhile isSpaceChar)).map
        fun tp => d1 :: d2 :: (rest.takeWhile isSpaceChar ++ tp)
    else none
  | _ => none

/-- Backtracked alternative: a one-digit day, then
`\s+\d{2}:\d{2}:\d{2}`. -/
def dayTime1 (r : List Char) : Option (List Char) :=
  match r with
  | d1 :: rest =>
    if d1.isDigit then
      if (rest.takeWhile isSpaceChar).isEmpty then none
      else (timePart (rest.dropWhile isSpaceChar)).map
        fun tp => d1 :: (rest.takeWhile isSpaceChar ++ tp)
    else none
  | _ => none

/-- `\d{1,2}\s+\d{2}:\d{2}:\d{2}` at the head of `r`, with the regex's
greedy backtracking on the day width (two digits tried before one). -/
def dayTime (r : List Char) : Option (List Char) :=
  dayTime2 r <|> dayTime1 r

/-- `PATTERNS["timestamp_syslog"]` matched at the start of the line
(the pattern is anchored with `^`):
`^(?P<timestamp>\w{3}\s+\d{1,2}\s+\d{2}:\d{2}:\d{2})`. -/
def syslogAt (t : List Char) : Option (List Char) :=
  match t with
  | a :: b :: c :: r =>
    if isWordChar a && isWordChar b && isWordChar c then
      if (r.takeWhile isSpaceChar).isEmpty then none
      else (dayTime (r.dropWhile isSpaceChar)).map
        fun dt => a :: b :: c :: (r.takeWhile isSpaceChar ++ dt)
    else none
  | _ => none

/-- `PATTERNS["timestamp_syslog"].search(line)` (anchored). -/
def timestamp_syslog (s : String) : Option String :=
  (syslogAt s.data).map String.mk

/-- Decimal digits to a natural number. -/
def digitsToNat (l : List Char) : Nat :=
  l.foldl (fun acc c => acc * 10 + (c.toNat - 48)) 0

/-- The exact rational value of a parsed decimal `[-]ip.fp` with `fl`
fractional digits. -/
def decVal (neg : Bool) (ip fp : Nat) (fl : Nat) : ℚ :=
  (if neg then -1 else 1) * ((ip : ℚ) + (fp : ℚ) / (10 : ℚ) ^ fl)

/-- Is the optional leading sign a minus? -/
def leadMinus : List Char → Bool
  | '-' :: _ => true
  | _ => false

/-- Drop an optional leading sign. -/
def dropSign : List Char → List Char
  | '-' :: r => r
  | '+' :: r => r
  | t => t

/-- Model of Python `float(str)` on its plain decimal fragment (optional
surrounding whitespace, optional sign, digits with an optional fractional
part; at least one digit). The payloads reaching `float` in the source
always match `\d+\.?\d*`. Returns `none` where `float` raises
`ValueError`. -/
def pyFloat (s : String) : Option ℚ :=
  let t0 := s.data.dropWhile isSpaceChar
  let neg : Bool := leadMinus t0
  let t := dropSign t0
  let ds := t.takeWhile Char.isDigit
  let t1 := t.drop ds.length
  match t1 with
  | '.' :: r =>
    let fs := r.takeWhile Char.isDigit
    let t2 := r.drop fs.length
    if (!ds.isEmpty || !fs.isEmpty) && (t2.dropWhile isSpaceChar).isEmpty then
      some (decVal neg (digitsToNat ds) (digitsToNat fs) fs.length)
    else none
  | _ =>
    if !ds.isEmpty && (t1.dropWhile isSpaceChar).isEmpty then
      some (decVal neg (digitsToNat ds) 0 0)
    else none

/-- Python `str.strip()` (ASCII whitespace fragment). -/
def pyStrip (s : String) : String :=
  String.mk (((s.data.dropWhile isSpaceChar).reverse.dropWhile isSpaceChar).reverse)

/-- Insertion-ordered association list standing for `collections.Counter` /
`defaultdict(int)`: Python dicts iterate in insertion order. -/
def bump : List (String × Nat) → String → List (String × Nat)
  | [], k => [(k, 1)]
  | (k', v) :: rest, k =>
    if k' = k then (k', v + 1) :: rest else (k', v) :: bump rest k

/-- Dict lookup with `Counter` / `defaultdict(int)` default `0`. -/
def getCount : List (String × Nat) → String → Nat
  | [], _ => 0
  | (k', v) :: rest, k => if k' = k then v else getCount rest k

/-- The mutable state of a `NetworkLogParser` instance (all the fields its
`__init__` creates that the pass and the report use). -/
structure State where
  total_lines : Nat := 0
  denied_entries : List (Nat × String) := []
  allowed_entries : List (Nat × String) := []
  connection_errors : List (Nat × String) := []
  dns_failures : List (Nat × String) := []
  dns_queries : List (Nat × String) := []
  high_latency : List (Nat × ℚ × String) := []
  packet_loss_entries : List (Nat × ℚ × String) := []
  dhcp_events : List (Nat × String) := []
  source_ips : List (String × Nat) := []
  dest_ips : List (String × Nat) := []
  denied_ips : List (String × Nat) := []
  error_timeline : List (String × Nat) := []
  ports_targeted : List (String × Nat) := []
deriving DecidableEq, Repr

/-- `NetworkLogParser._extract_ips`: for every `finditer` match the method
re-runs `findall` on the same line and increments the source table at the
first found IP and (when two or more are found) the destination table at
the second. -/
def extract_ips (st : State) (line : String) : State :=
  (ipFindAll line.data).foldl
    (fun st _m =>
      let ips := ipFindAll line.data
      let st :=
        match ips with
        | ip0 :: _ => { st with source_ips := bump st.source_ips ip0 }
        | [] => st
      match ips with
      | _ :: ip1 :: _ => { st with dest_ips := bump st.dest_ips ip1 }
      | _ => st)
    st

/-- `NetworkLogParser._extract_ports`. -/
def extract_ports (st : State) (line : String) : State :=
  (portFindAll (lowerL line.data)).foldl
    (fun st p => { st with ports_targeted := bump st.ports_targeted p }) st

/-- `NetworkLogParser._check_firewall`: deny checked first; on deny, every
`findall` IP bumps the denied-IP table; else allow. -/
def check_firewall (st : State) (line : String) (line_num : Nat) : State :=
  if firewall_deny line then
    let st := { st with
      denied_entries := st.denied_entries ++ [(line_num, pyStrip line)] }
    (ipFindAll line.data).foldl
      (fun st ip => { st with denied_ips := bump st.denied_ips ip }) st
  else if firewall_allow line then
    { st with allowed_entries := st.allowed_entries ++ [(line_num, pyStrip line)] }
  else st

/-- `NetworkLogParser._check_dns`: failure checked before query. -/
def check_dns (st : State) (line : String) (line_num : Nat) : State :=
  if dns_failure line then
    { st with dns_failures := st.dns_failures ++ [(line_num, pyStrip line)] }
  else if dns_query line then
    { st with dns_queries := st.dns_queries ++ [(line_num, pyStrip line)] }
  else st

/-- `NetworkLogParser._check_connection_errors`. -/
def check_connection_errors (st : State) (line : String) (line_num : Nat) : State :=
  if connection_error line then
    { st with connection_errors :=
        st.connection_errors ++ [(line_num, pyStrip line)] }
  else st

/-- `NetworkLogParser._check_latency`: `float(...)` has no surrounding
`try`, so a parse failure would raise and abort the pass (`Except.error`). -/
def check_latency (st : State) (line : String) (line_num : Nat) :
    Except Unit State :=
  match latencySearch line with
  | none => .ok st
  | some msStr =>
    match pyFloat msStr with
    | none => .error ()
    | some ms =>
      .ok (if 100 < ms then
        { st with high_latency := st.high_latency ++ [(line_num, ms, pyStrip line)] }
      else st)

/-- `NetworkLogParser._check_packet_loss` (same `float` remark). -/
def check_packet_loss (st : State) (line : String) (line_num : Nat) :
    Except Unit State :=
  match packetLossSearch line with
  | none => .ok st
  | some lossStr =>
    match pyFloat lossStr with
    | none => .error ()
    | some loss =>
      .ok (if 0 < loss then
        { st with packet_loss_entries :=
            st.packet_loss_entries ++ [(line_num, loss, pyStrip line)] }
      else st)

/-- `NetworkLogParser._check_dhcp`. -/
def check_dhcp (st : State) (line : String) (line_num : Nat) : State :=
  if dhcp_event line then
    { st with dhcp_events := st.dhcp_events ++ [(line_num, pyStrip line)] }
  else st

/-- `NetworkLogParser._extract_timestamp_bucket`: try `timestamp_iso`, then
`timestamp_syslog`; the first hit ends the loop (`break`). The hour bucket
is `ts[:13]` for ISO, `ts[:10]` for syslog; it is bumped once when the line
matches `firewall_deny` or `connection_error`. -/
def extract_timestamp_bucket (st : State) (line : String) : State :=
  match timestamp_iso line with
  | some ts =>
    if firewall_deny line || connection_error line then
      { st with error_timeline := bump st.error_timeline (ts.take 13) }
    else st
  | none =>
    match timestamp_syslog line with
    | some ts =>
      if firewall_deny line || connection_error line then
        { st with error_timeline := bump st.error_timeline (ts.take 10) }
      else st
    | none => st

/-- One iteration of the loop body of `NetworkLogParser.parse`. -/
def processLine (st : State) (line_num : Nat) (line : String) :
    Except Unit State := do
  let st := extract_ips st line
  let st := extract_ports st line
  let st := check_firewall st line line_num
  let st := check_dns st line line_num
  let st := check_connection_errors st line line_num
  let st ← check_latency st line line_num
  let st ← check_packet_loss st line line_num
  let st := check_dhcp st line line_num
  return extract_timestamp_bucket st line

/-- The loop of `NetworkLogParser.parse` (`enumerate(self.lines, start=1)`),
starting at line number `n`. -/
def parseFrom (st : State) (n : Nat) : List String → Except Unit State
  | [] => .ok st
  | l :: ls => do
    let st' ← processLine st n l
    parseFrom st' (n + 1) ls

/-- `load()` followed by `parse()`: `total_lines` is the number of lines
read, then every line is classified in order, numbered from 1. -/
def runParse (lines : List String) : Except Unit State :=
  parseFrom { total_lines := lines.length } 1 lines

/-- `runParse` as an `Option` (convenient for concrete evaluations). -/
def runParseO (lines : List String) : Option State := (runParse lines).toOption

/-- Stable insertion sort, standing for Python's stable `sorted`: `x` is
placed before the first `y` with `le x y`, so elements that compare equal
keep their original relative order. -/
def sIns {α : Type} (le : α → α → Bool) (x : α) : List α → List α
  | [] => [x]
  | y :: ys => if le x y then x :: y :: ys else y :: sIns le x ys

/-- Stable sort by `le` (model of Python `sorted`). -/
def sSort {α : Type} (le : α → α → Bool) : List α → List α
  | [] => []
  | x :: xs => sIns le x (sSort le xs)

/-- `Counter.most_common(n)`: items sorted by count descending with
Python's stable sort (ties keep insertion order), truncated to `n`. -/
def mostCommon (c : List (String × Nat)) (n : Nat) : List (String × Nat) :=
  (sSort (fun a b => decide (b.2 ≤ a.2)) c).take n

/-- Python string comparison (lexicographic by code point). -/
def lexLe : List Char → List Char → Bool
  | [], _ => true
  | _ :: _, [] => false
  | a :: as, b :: bs => if a = b then lexLe as bs else decide (a.val < b.val)

/-- Left-justify to `w` characters: Python `f"{s:<w}"`. -/
def padR (s : String) (w : Nat) : String :=
  s ++ String.mk (List.replicate (w - s.length) ' ')

/-- Right-justify to `w` characters: Python `f"{s:>w}"`. -/
def padL (s : String) (w : Nat) : String :=
  String.mk (List.replicate (w - s.length) ' ') ++ s

/-- Round half to even (Python float formatting's rounding mode), on the
exact-rational model of the values. -/
def roundHalfEven (q : ℚ) : ℤ :=
  let f := ⌊q⌋
  if q - f < 1 / 2 then f
  else if 1 / 2 < q - f then f + 1
  else if f % 2 = 0 then f else f + 1

/-- Python `f"{x:.1f}"` on the exact-rational model. -/
def fmt1 (q : ℚ) : String :=
  let n := roundHalfEven (q * 10)
  let sign := if n < 0 then "-" else ""
  sign ++ toString (n.natAbs / 10) ++ "." ++ toString (n.natAbs % 10)

/-- `border = "=" * 72`. -/
def border : String := String.mk (List.replicate 72 '=')

/-- The `[SUMMARY]` block of `NetworkLogParser.report`. -/
def summaryLines (st : State) : List String :=
  ["\n[SUMMARY]",
   "  Firewall DENY/DROP entries : " ++ toString st.denied_entries.length,
   "  Firewall ALLOW entries     : " ++ toString st.allowed_entries.length,
   "  Connection errors          : " ++ toString st.connection_errors.length,
   "  DNS failures               : " ++ toString st.dns_failures.length,
   "  High-latency entries (>100ms): " ++ toString st.high_latency.length,
   "  Packet-loss entries (>0%)  : " ++ toString st.packet_loss_entries.length,
   "  DHCP events                : " ++ toString st.dhcp_events.length]

/-- `[TOP n IPs IN DENY/DROP ENTRIES]`, omitted when the table is empty. -/
def deniedIpsSection (st : State) (top_n : Nat) : List String :=
  if st.denied_ips.isEmpty then []
  else
    ("\n[TOP " ++ toString top_n ++ " IPs IN DENY/DROP ENTRIES]") ::
    (mostCommon st.denied_ips top_n).map fun p =>
      "  " ++ padR p.1 20 ++ " " ++ toString p.2 ++ " hits"

/-- `[TOP n SOURCE IPs]`, omitted when the table is empty. -/
def sourceIpsSection (st : State) (top_n : Nat) : List String :=
  if st.source_ips.isEmpty then []
  else
    ("\n[TOP " ++ toString top_n ++ " SOURCE IPs]") ::
    (mostCommon st.source_ips top_n).map fun p =>
      "  " ++ padR p.1 20 ++ " " ++ toString p.2 ++ " occurrences"

/-- `[TOP n DESTINATION IPs]`, omitted when the table is empty. -/
def destIpsSection (st : State) (top_n : Nat) : List String :=
  if st.dest_ips.isEmpty then []
  else
    ("\n[TOP " ++ toString top_n ++ " DESTINATION IPs]") ::
    (mostCommon st.dest_ips top_n).map fun p =>
      "  " ++ padR p.1 20 ++ " " ++ toString p.2 ++ " occurrences"

/-- `[TOP n TARGETED PORTS]`, omitted when the table is empty. -/
def portsSection (st : State) (top_n : Nat) : List String :=
  if st.ports_targeted.isEmpty then []
  else
    ("\n[TOP " ++ toString top_n ++ " TARGETED PORTS]") ::
    (mostCommon st.ports_targeted top_n).map fun p =>
      "  Port " ++ padR p.1 10 ++ " " ++ toString p.2 ++ " occurrences"

/-- `[ERROR TIMELINE ...]`: buckets in ascending key order, each with its
count and a bar capped at 60 `#`; omitted when the timeline is empty. -/
def timelineSection (st : State) : List String :=
  if st.error_timeline.isEmpty then []
  else
    "\n[ERROR TIMELINE (errors per time bucket)]" ::
    (sSort (fun a b => lexLe a.1.data b.1.data) st.error_timeline).map fun p =>
      let cnt := getCount st.error_timeline p.1
      "  " ++ p.1 ++ "  " ++ padL (toString cnt) 5 ++ "  " ++
        String.mk (List.replicate (min cnt 60) '#')

/-- `[CONNECTION ERRORS — showing first n]`, omitted when empty. -/
def connErrSection (st : State) (top_n : Nat) : List String :=
  if st.connection_errors.isEmpty then []
  else
    ("\n[CONNECTION ERRORS — showing first " ++ toString top_n ++ "]") ::
    (st.connection_errors.take top_n).map fun p =>
      "  Line " ++ toString p.1 ++ ": " ++ p.2.take 120

/-- `[DNS FAILURES — showing first n]`, omitted when empty. -/
def dnsFailuresSection (st : State) (top_n : Nat) : List String :=
  if st.dns_failures.isEmpty then []
  else
    ("\n[DNS FAILURES — showing first " ++ toString top_n ++ "]") ::
    (st.dns_failures.take top_n).map fun p =>
      "  Line " ++ toString p.1 ++ ": " ++ p.2.take 120

/-- `[HIGH LATENCY ENTRIES — showing first n]`: sorted descending by value
(`key=lambda x: -x[1]`, stable), truncated; omitted when empty. -/
def highLatencySection (st : State) (top_n : Nat) : List String :=
  if st.high_latency.isEmpty then []
  else
    ("\n[HIGH LATENCY ENTRIES — showing first " ++ toString top_n ++ "]") ::
    ((sSort (fun a b => decide (b.2.1 ≤ a.2.1)) st.high_latency).take top_n).map
      fun p =>
        "  Line " ++ toString p.1 ++ " (" ++ fmt1 p.2.1 ++ " ms): " ++
          p.2.2.take 120

/-- `[PACKET LOSS ENTRIES — showing first n]`, sorted descending by value;
omitted when empty. -/
def packetLossSection (st : State) (top_n : Nat) : List String :=
  if st.packet_loss_entries.isEmpty then []
  else
    ("\n[PACKET LOSS ENTRIES — showing first " ++ toString top_n ++ "]") ::
    ((sSort (fun a b => decide (b.2.1 ≤ a.2.1)) st.packet_loss_entries).take
        top_n).map
      fun p =>
        "  Line " ++ toString p.1 ++ " (" ++ fmt1 p.2.1 ++ "% loss): " ++
          p.2.2.take 120

/-- `[DHCP EVENTS — showing first n]`, omitted when empty. -/
def dhcpSection (st : State) (top_n : Nat) : List String :=
  if st.dhcp_events.isEmpty then []
  else
    ("\n[DHCP EVENTS — showing first " ++ toString top_n ++ "]") ::
    (st.dhcp_events.take top_n).map fun p =>
      "  Line " ++ toString p.1 ++ ": " ++ p.2.take 120

/-- `[FIREWALL DENY/DROP SAMPLE — showing first n]`, omitted when empty. -/
def denySampleSection (st : State) (top_n : Nat) : List String :=
  if st.denied_entries.isEmpty then []
  else
    ("\n[FIREWALL DENY/DROP SAMPLE — showing first " ++ toString top_n ++ "]") ::
    (st.denied_entries.take top_n).map fun p =>
      "  Line " ++ toString p.1 ++ ": " ++ p.2.take 120

/-- The `sections` list built by `NetworkLogParser.report(top_n)`.
`filepath` is the instance's `self.filepath`; `now` stands for the
`datetime.now().strftime(...)` text (a clock input of the renderer). -/
def reportLines (filepath now : String) (st : State) (top_n : Nat) :
    List String :=
  [border, "  NETWORK LOG TROUBLESHOOTING REPORT", "  Source: " ++ filepath,
   "  Total lines parsed: " ++ toString st.total_lines,
   "  Generated: " ++ now, border] ++
  summaryLines st ++
  deniedIpsSection st top_n ++ sourceIpsSection st top_n ++
  destIpsSection st top_n ++ portsSection st top_n ++ timelineSection st ++
  connErrSection st top_n ++ dnsFailuresSection st top_n ++
  highLatencySection st top_n ++ packetLossSection st top_n ++
  dhcpSection st top_n ++ denySampleSection st top_n ++
  ["\n" ++ border, "  END OF REPORT", border ++ "\n"]

/-- `NetworkLogParser.report`: `"\n".join(sections)`. -/
def report (filepath now : String) (st : State) (top_n : Nat) : String :=
  String.intercalate "\n" (reportLines filepath now st top_n)

/-- The hour bucket the loop of `_extract_timestamp_bucket` derives for a
line: the ISO pattern is tried first, else the syslog one; the first
successful match wins, so a line yields at most one bucket. -/
def hourBucket (line : String) : Option String :=
  match timestamp_iso line with
  | some ts => some (ts.take 13)
  | none => (timestamp_syslog line).map fun ts => ts.take 10

/-- Line numbers of every MatchRecord held in the eight per-category
lists of the state. -/
def recordLineNumbers (st : State) : List Nat :=
  st.denied_entries.map Prod.fst ++ st.allowed_entries.map Prod.fst ++
  st.connection_errors.map Prod.fst ++ st.dns_failures.map Prod.fst ++
  st.dns_queries.map Prod.fst ++ st.high_latency.map Prod.fst ++
  st.packet_loss_entries.map Prod.fst ++ st.dhcp_events.map Prod.fst

/-! ### Helper lemmas -/

theorem getCount_bump (c : List (String × Nat)) (k k' : String) :
    getCount (bump c k) k' = getCount c k' + if k = k' then 1 else 0 := by
  induction c with
  | nil =>
    simp only [bump, getCount]
    split_ifs <;> simp
  | cons a rest ih =>
    obtain ⟨a1, a2⟩ := a
    by_cases hak : a1 = k
    · subst hak
      simp only [bump, if_pos rfl, getCount]
      split_ifs <;> omega
    · simp only [bump, if_neg hak, getCount]
      by_cases hak' : a1 = k'
      · subst hak'
        have hkk : ¬ k = a1 := fun h => hak h.symm
        simp [hkk]
      · simp [hak', ih]

theorem foldl_bump_denied (l : List String) (st : State) :
    ((l.foldl (fun s ip => { s with denied_ips := bump s.denied_ips ip }) st).denied_entries
        = st.denied_entries) ∧
    ((l.foldl (fun s ip => { s with denied_ips := bump s.denied_ips ip }) st).allowed_entries
        = st.allowed_entries) ∧
    ∀ ip,
      getCount ((l.foldl (fun s ip => { s with denied_ips := bump s.denied_ips ip }) st).denied_ips) ip
        = getCount st.denied_ips ip + l.count ip := by
  induction l generalizing st with
  | nil => simp
  | cons a l ih =>
    simp only [List.foldl_cons]
    refine ⟨(ih _).1, (ih _).2.1, fun ip => ?_⟩
    rw [(ih _).2.2 ip]
    show getCount (bump st.denied_ips a) ip + l.count ip = _
    rw [getCount_bump, List.count_cons]
    simp only [beq_iff_eq]
    split_ifs <;> omega

theorem containsCI_refused_deny (line : String)
    (h : containsCI line "refused" = true) : firewall_deny line = true := by
  rcases List.any_eq_true.mp h with ⟨t, ht, hp⟩
  refine List.any_eq_true.mpr ⟨t, ht, ?_⟩
  have hl : lowerL "refused".data = "refused".data := by rfl
  rw [hl] at hp
  simp [denyTail, hp]

theorem containsCI_refused_dnsfail (line : String)
    (h : containsCI line "refused" = true) : dns_failure line = true := by
  rcases List.any_eq_true.mp h with ⟨t, ht, hp⟩
  refine List.any_eq_true.mpr ⟨t, ht, ?_⟩
  have hl : lowerL "refused".data = "refused".data := by rfl
  rw [hl] at hp
  simp [dnsFailureTail, hp]

theorem exists_of_findSome {α β : Type} (l : List α) (f : α → Option β) (b : β)
    (h : l.findSome? f = some b) : ∃ a ∈ l, f a = some b := by
  induction l with
  | nil => simp [List.findSome?] at h
  | cons x xs ih =>
    rw [List.findSome?_cons] at h
    cases hfx : f x with
    | some y =>
      rw [hfx] at h
      exact ⟨x, by simp, hfx.trans h⟩
    | none =>
      rw [hfx] at h
      obtain ⟨a, ha, hb⟩ := ih h
      exact ⟨a, by simp [ha], hb⟩

theorem isDigit_not_space (c : Char) (h : c.isDigit = true) :
    isSpaceChar c = false := by
  simp only [isSpaceChar, Bool.or_eq_false_iff, decide_eq_false_iff_not]
  refine ⟨⟨⟨⟨⟨?_, ?_⟩, ?_⟩, ?_⟩, ?_⟩, ?_⟩ <;> rintro rfl <;> simp at h

theorem isDigit_ne_dot (c : Char) (h : c.isDigit = true) : ¬ c = '.' := by
  rintro rfl; simp at h

theorem leadMinus_digit (c : Char) (r : List Char) (h : c.isDigit = true) :
    leadMinus (c :: r) = false := by
  unfold leadMinus
  split
  · next heq =>
    injection heq with h1 _
    subst h1; simp at h
  · rfl

theorem dropSign_digit (c : Char) (r : List Char) (h : c.isDigit = true) :
    dropSign (c :: r) = c :: r := by
  unfold dropSign
  split
  · next heq =>
    injection heq with h1 _
    subst h1; simp at h
  · next heq =>
    injection heq with h1 _
    subst h1; simp at h
  · rfl

theorem takeWhile_append_stop {α : Type} (p : α → Bool) (l : List α) (x : α)
    (r : List α) (hl : ∀ c ∈ l, p c = true) (hx : p x = false) :
    (l ++ x :: r).takeWhile p = l := by
  induction l with
  | nil => simp [List.takeWhile_cons, hx]
  | cons a l ih =>
    have ha : p a = true := hl a (by simp)
    simp only [List.cons_append, List.takeWhile_cons, ha, if_pos]
    rw [ih fun c hc => hl c (by simp [hc])]

theorem takeWhile_all {α : Type} (p : α → Bool) (l : List α)
    (hl : ∀ c ∈ l, p c = true) : l.takeWhile p = l :=
  List.takeWhile_eq_self_iff.mpr hl

theorem pyFloat_isSome_dot (d f : List Char) (hd : d ≠ [])
    (hdd : ∀ c ∈ d, c.isDigit = true) (hff : ∀ c ∈ f, c.isDigit = true) :
    (pyFloat (String.mk (d ++ '.' :: f))).isSome = true := by
  obtain ⟨c, d', rfl⟩ := List.exists_cons_of_ne_nil hd
  have hc : c.isDigit = true := hdd c (by simp)
  simp only [pyFloat]
  rw [show List.dropWhile isSpaceChar ((c :: d') ++ '.' :: f) = (c :: d') ++ '.' :: f by
    rw [List.cons_append, List.dropWhile_cons, isDigit_not_space c hc]; simp]
  rw [show dropSign ((c :: d') ++ '.' :: f) = (c :: d') ++ '.' :: f by
    rw [List.cons_append]; exact dropSign_digit c _ hc]
  rw [takeWhile_append_stop Char.isDigit (c :: d') '.' f hdd (by simp),
    List.drop_left]
  simp [takeWhile_all Char.isDigit f hff]

theorem pyFloat_isSome_digits (d : List Char) (hd : d ≠ [])
    (hdd : ∀ c ∈ d, c.isDigit = true) :
    (pyFloat (String.mk d)).isSome = true := by
  obtain ⟨c, d', rfl⟩ := List.exists_cons_of_ne_nil hd
  have hc : c.isDigit = true := hdd c (by simp)
  simp only [pyFloat]
  simp only [List.dropWhile_cons, isDigit_not_space c hc, Bool.false_eq_true,
    if_false]
  rw [dropSign_digit c _ hc]
  rw [takeWhile_all Char.isDigit (c :: d') hdd, List.drop_length]
  simp

theorem numCandidates_shape (t : List Char) (pr : List Char × List Char)
    (h : pr ∈ numCandidates t) :
    ∃ d f, (pr.1 = d ++ '.' :: f ∨ pr.1 = d) ∧ d ≠ [] ∧
      (∀ c ∈ d, c.isDigit = true) ∧ ∀ c ∈ f, c.isDigit = true := by
  unfold numCandidates at h
  by_cases hL : (t.takeWhile Char.isDigit).length = 0
  · rw [if_pos hL] at h
    simp at h
  · rw [if_neg hL] at h
    simp only [List.mem_flatMap, List.mem_range] at h
    obtain ⟨i, hi, hmem⟩ := h
    have hdigits : ∀ c ∈ t.takeWhile Char.isDigit, c.isDigit = true :=
      fun c hc => List.mem_takeWhile_imp hc
    have htk : ∀ j, 1 ≤ j →
        (t.takeWhile Char.isDigit).take j ≠ [] ∧
        ∀ c ∈ (t.takeWhile Char.isDigit).take j, c.isDigit = true := by
      intro j hj
      refine ⟨?_, fun c hc => hdigits c (List.take_subset _ _ hc)⟩
      have hlen : ((t.takeWhile Char.isDigit).take j).length
          = min j (t.takeWhile Char.isDigit).length := by simp
      intro hnil
      rw [hnil] at hlen
      simp only [List.length_nil] at hlen
      omega
    split at hmem
    · simp only [List.mem_append, List.mem_map, List.mem_range,
        List.mem_singleton] at hmem
      rcases hmem with ⟨j, hj, hpr⟩ | hpr
      · cases hpr
        refine ⟨_, _, Or.inl rfl, (htk _ ?_).1, (htk _ ?_).2,
          fun c hc => List.mem_takeWhile_imp (List.take_subset _ _ hc)⟩ <;> omega
      · subst hpr
        refine ⟨_, [], Or.inr rfl, (htk _ ?_).1, (htk _ ?_).2, by simp⟩ <;> omega
    · simp only [List.mem_map, List.mem_range] at hmem
      obtain ⟨j, hj, hpr⟩ := hmem
      cases hpr
      refine ⟨_, [], Or.inr rfl, (htk _ ?_).1, (htk _ ?_).2, by simp⟩ <;> omega

theorem latency_payload_parses (line : String) (s : String)
    (h : latencySearch line = some s) : (pyFloat s).isSome = true := by
  unfold latencySearch at h
  obtain ⟨t, _, hat⟩ := exists_of_findSome _ _ _ h
  unfold latencyAt at hat
  obtain ⟨r, _, hrat⟩ := exists_of_findSome _ _ _ hat
  cases hsep : sepRun r with
  | none => rw [hsep] at hrat; simp at hrat
  | some r2 =>
    rw [hsep, Option.some_bind] at hrat
    obtain ⟨pr, hpr, hprs⟩ := exists_of_findSome _ _ _ hrat
    obtain ⟨d, f, hshape, hd, hdd, hff⟩ := numCandidates_shape _ _ hpr
    have hs : s = String.mk pr.1 := by
      by_cases hms : (lit "ms".data (ws0 pr.2)).isSome = true
      · rw [if_pos hms] at hprs
        exact (Option.some.inj hprs).symm
      · rw [if_neg hms] at hprs
        cases hprs
    subst hs
    rcases hshape with h1 | h1 <;> rw [h1]
    · exact pyFloat_isSome_dot d f hd hdd hff
    · exact pyFloat_isSome_digits d hd hdd

theorem loss_payload_parses (line : String) (s : String)
    (h : packetLossSearch line = some s) : (pyFloat s).isSome = true := by
  unfold packetLossSearch at h
  obtain ⟨t, _, hat⟩ := exists_of_findSome _ _ _ h
  unfold lossAt at hat
  obtain ⟨pr, hpr, hprs⟩ := exists_of_findSome _ _ _ hat
  obtain ⟨d, f, hshape, hd, hdd, hff⟩ := numCandidates_shape _ _ hpr
  have hs : s = String.mk pr.1 := by
    by_cases hlc : lossContinuation pr.2 = true
    · rw [if_pos hlc] at hprs
      exact (Option.some.inj hprs).symm
    · rw [if_neg hlc] at hprs
      cases hprs
  subst hs
  rcases hshape with h1 | h1 <;> rw [h1]
  · exact pyFloat_isSome_dot d f hd hdd hff
  · exact pyFloat_isSome_digits d hd hdd

/-- `_check_latency` never aborts: either the state is unchanged or exactly
one high-latency record is appended. -/
theorem check_latency_cases (st : State) (line : String) (n : Nat) :
    check_latency st line n = .ok st ∨
    ∃ v, check_latency st line n =
      .ok { st with high_latency := st.high_latency ++ [(n, v, pyStrip line)] } := by
  rcases hs : latencySearch line with _ | s
  · exact Or.inl (by simp [check_latency, hs])
  · obtain ⟨v, hv⟩ := Option.isSome_iff_exists.mp (latency_payload_parses line s hs)
    by_cases h : (100 : ℚ) < v
    · exact Or.inr ⟨v, by simp [check_latency, hs, hv, h]⟩
    · exact Or.inl (by simp [check_latency, hs, hv, h])

/-- `_check_packet_loss` never aborts: either the state is unchanged or
exactly one packet-loss record is appended. -/
theorem check_packet_loss_cases (st : State) (line : String) (n : Nat) :
    check_packet_loss st line n = .ok st ∨
    ∃ v, check_packet_loss st line n =
      .ok { st with packet_loss_entries :=
        st.packet_loss_entries ++ [(n, v, pyStrip line)] } := by
  rcases hs : packetLossSearch line with _ | s
  · exact Or.inl (by simp [check_packet_loss, hs])
  · obtain ⟨v, hv⟩ := Option.isSome_iff_exists.mp (loss_payload_parses line s hs)
    by_cases h : (0 : ℚ) < v
    · exact Or.inr ⟨v, by simp [check_packet_loss, hs, hv, h]⟩
    · exact Or.inl (by simp [check_packet_loss, hs, hv, h])

theorem foldl_preserves_rec {β : Type} (f : State → β → State)
    (hf : ∀ st b, recordLineNumbers (f st b) = recordLineNumbers st ∧
      (f st b).total_lines = st.total_lines) :
    ∀ (l : List β) (st : State),
      recordLineNumbers (l.foldl f st) = recordLineNumbers st ∧
      (l.foldl f st).total_lines = st.total_lines := by
  intro l
  induction l with
  | nil => intro st; exact ⟨rfl, rfl⟩
  | cons a l ih =>
    intro st
    rw [List.foldl_cons]
    exact ⟨(ih _).1.trans (hf st a).1, (ih _).2.trans (hf st a).2⟩

theorem extract_ips_rec (st : State) (line : String) :
    recordLineNumbers (extract_ips st line) = recordLineNumbers st ∧
    (extract_ips st line).total_lines = st.total_lines := by
  unfold extract_ips
  refine foldl_preserves_rec _ (fun st b => ?_) _ st
  rcases ipFindAll line.data with _ | ⟨i0, _ | ⟨i1, r⟩⟩ <;> exact ⟨rfl, rfl⟩

theorem extract_ports_rec (st : State) (line : String) :
    recordLineNumbers (extract_ports st line) = recordLineNumbers st ∧
    (extract_ports st line).total_lines = st.total_lines := by
  unfold extract_ports
  exact foldl_preserves_rec
    (fun s p => { s with ports_targeted := bump s.ports_targeted p })
    (fun st b => ⟨rfl, rfl⟩) (portFindAll (lowerL line.data)) st

theorem extract_timestamp_bucket_rec (st : State) (line : String) :
    recordLineNumbers (extract_timestamp_bucket st line) = recordLineNumbers st ∧
    (extract_timestamp_bucket st line).total_lines = st.total_lines := by
  unfold extract_timestamp_bucket
  rcases timestamp_iso line with _ | ts
  · rcases timestamp_syslog line with _ | ts
    · exact ⟨rfl, rfl⟩
    · split_ifs <;> exact ⟨rfl, rfl⟩
  · split_ifs <;> exact ⟨rfl, rfl⟩

theorem mem_records_append_entry (st : State) (n : Nat) (e : String) (m : Nat) :
    (m ∈ recordLineNumbers { st with denied_entries := st.denied_entries ++ [(n, e)] } →
      m ∈ recordLineNumbers st ∨ m = n) ∧
    (m ∈ recordLineNumbers { st with allowed_entries := st.allowed_entries ++ [(n, e)] } →
      m ∈ recordLineNumbers st ∨ m = n) ∧
    (m ∈ recordLineNumbers { st with connection_errors := st.connection_errors ++ [(n, e)] } →
      m ∈ recordLineNumbers st ∨ m = n) ∧
    (m ∈ recordLineNumbers { st with dns_failures := st.dns_failures ++ [(n, e)] } →
      m ∈ recordLineNumbers st ∨ m = n) ∧
    (m ∈ recordLineNumbers { st with dns_queries := st.dns_queries ++ [(n, e)] } →
      m ∈ recordLineNumbers st ∨ m = n) ∧
    (m ∈ recordLineNumbers { st with dhcp_events := st.dhcp_events ++ [(n, e)] } →
      m ∈ recordLineNumbers st ∨ m = n) := by
  refine ⟨?_, ?_, ?_, ?_, ?_, ?_⟩ <;>
    · intro hm
      simp only [recordLineNumbers, List.map_append, List.mem_append,
        List.map_cons, List.map_nil, List.mem_singleton, List.mem_cons,
        List.not_mem_nil, or_false] at hm ⊢
      tauto

theorem mem_records_append_val (st : State) (n : Nat) (v : ℚ) (e : String) (m : Nat) :
    (m ∈ recordLineNumbers { st with high_latency := st.high_latency ++ [(n, v, e)] } →
      m ∈ recordLineNumbers st ∨ m = n) ∧
    (m ∈ recordLineNumbers { st with packet_loss_entries :=
        st.packet_loss_entries ++ [(n, v, e)] } →
      m ∈ recordLineNumbers st ∨ m = n) := by
  refine ⟨?_, ?_⟩ <;>
    · intro hm
      simp only [recordLineNumbers, List.map_append, List.mem_append,
        List.map_cons, List.map_nil, List.mem_singleton, List.mem_cons,
        List.not_mem_nil, or_false] at hm ⊢
      tauto

theorem check_firewall_rec (st : State) (line : String) (n : Nat) :
    (check_firewall st line n).total_lines = st.total_lines ∧
    ∀ m ∈ recordLineNumbers (check_firewall st line n),
      m ∈ recordLineNumbers st ∨ m = n := by
  unfold check_firewall
  split_ifs with h1 h2
  · have hb := foldl_preserves_rec
      (fun s ip => { s with denied_ips := bump s.denied_ips ip })
      (fun st b => ⟨rfl, rfl⟩) (ipFindAll line.data)
      { st with denied_entries := st.denied_entries ++ [(n, pyStrip line)] }
    refine ⟨hb.2.trans rfl, fun m hm => ?_⟩
    rw [hb.1] at hm
    exact (mem_records_append_entry st n (pyStrip line) m).1 hm
  · exact ⟨rfl, fun m hm =>
      (mem_records_append_entry st n (pyStrip line) m).2.1 hm⟩
  · exact ⟨rfl, fun m hm => Or.inl hm⟩

theorem check_dns_rec (st : State) (line : String) (n : Nat) :
    (check_dns st line n).total_lines = st.total_lines ∧
    ∀ m ∈ recordLineNumbers (check_dns st line n),
      m ∈ recordLineNumbers st ∨ m = n := by
  unfold check_dns
  split_ifs with h1 h2
  · exact ⟨rfl, fun m hm =>
      (mem_records_append_entry st n (pyStrip line) m).2.2.2.1 hm⟩
  · exact ⟨rfl, fun m hm =>
      (mem_records_append_entry st n (pyStrip line) m).2.2.2.2.1 hm⟩
  · exact ⟨rfl, fun m hm => Or.inl hm⟩

theorem check_connection_errors_rec (st : State) (line : String) (n : Nat) :
    (check_connection_errors st line n).total_lines = st.total_lines ∧
    ∀ m ∈ recordLineNumbers (check_connection_errors st line n),
      m ∈ recordLineNumbers st ∨ m = n := by
  unfold check_connection_errors
  split_ifs with h1
  · exact ⟨rfl, fun m hm =>
      (mem_records_append_entry st n (pyStrip line) m).2.2.1 hm⟩
  · exact ⟨rfl, fun m hm => Or.inl hm⟩

theorem check_dhcp_rec (st : State) (line : String) (n : Nat) :
    (check_dhcp st line n).total_lines = st.total_lines ∧
    ∀ m ∈ recordLineNumbers (check_dhcp st line n),
      m ∈ recordLineNumbers st ∨ m = n := by
  unfold check_dhcp
  split_ifs with h1
  · exact ⟨rfl, fun m hm =>
      (mem_records_append_entry st n (pyStrip line) m).2.2.2.2.2 hm⟩
  · exact ⟨rfl, fun m hm => Or.inl hm⟩

theorem bind_ok_eq {α β : Type} (a : α) (f : α → Except Unit β) :
    (Except.ok a >>= f) = f a := rfl

/-- Totality and record bookkeeping of the latency / packet-loss / DHCP /
timeline tail of the per-line loop. -/
theorem tailChain_rec (stA : State) (line : String) (n : Nat) :
    ∃ st', (check_latency stA line n >>= fun st6 =>
        check_packet_loss st6 line n >>= fun st7 =>
          Except.ok (extract_timestamp_bucket (check_dhcp st7 line n) line))
        = .ok st' ∧
      st'.total_lines = stA.total_lines ∧
      ∀ m ∈ recordLineNumbers st', m ∈ recordLineNumbers stA ∨ m = n := by
  have hend : ∀ st7 : State,
      (extract_timestamp_bucket (check_dhcp st7 line n) line).total_lines
        = st7.total_lines ∧
      ∀ m ∈ recordLineNumbers (extract_timestamp_bucket (check_dhcp st7 line n) line),
        m ∈ recordLineNumbers st7 ∨ m = n := by
    intro st7
    refine ⟨?_, fun m hm => ?_⟩
    · rw [(extract_timestamp_bucket_rec _ line).2, (check_dhcp_rec _ line n).1]
    · rw [(extract_timestamp_bucket_rec _ line).1] at hm
      exact (check_dhcp_rec _ line n).2 m hm
  rcases check_latency_cases stA line n with h6 | ⟨v6, h6⟩ <;> rw [h6, bind_ok_eq]
  · rcases check_packet_loss_cases stA line n with h7 | ⟨v7, h7⟩ <;>
      rw [h7, bind_ok_eq]
    · exact ⟨_, rfl, (hend stA).1, (hend stA).2⟩
    · refine ⟨_, rfl, (hend _).1.trans rfl, fun m hm => ?_⟩
      rcases (hend _).2 m hm with hm | hm
      · exact (mem_records_append_val stA n v7 (pyStrip line) m).2 hm
      · exact Or.inr hm
  · rcases check_packet_loss_cases
        { stA with high_latency := stA.high_latency ++ [(n, v6, pyStrip line)] }
        line n with h7 | ⟨v7, h7⟩ <;> rw [h7, bind_ok_eq]
    · refine ⟨_, rfl, (hend _).1.trans rfl, fun m hm => ?_⟩
      rcases (hend _).2 m hm with hm | hm
      · exact (mem_records_append_val stA n v6 (pyStrip line) m).1 hm
      · exact Or.inr hm
    · refine ⟨_, rfl, (hend _).1.trans rfl, fun m hm => ?_⟩
      rcases (hend _).2 m hm with hm | hm
      · rcases (mem_records_append_val _ n v7 (pyStrip line) m).2 hm with hm | hm
        · exact (mem_records_append_val stA n v6 (pyStrip line) m).1 hm
        · exact Or.inr hm
      · exact Or.inr hm

theorem processLine_rec (st : State) (n : Nat) (line : String) :
    ∃ st', processLine st n line = .ok st' ∧
      st'.total_lines = st.total_lines ∧
      ∀ m ∈ recordLineNumbers st', m ∈ recordLineNumbers st ∨ m = n := by
  have e1 := extract_ips_rec st line
  have e2 := extract_ports_rec (extract_ips st line) line
  have e3 := check_firewall_rec (extract_ports (extract_ips st line) line) line n
  have e4 := check_dns_rec
    (check_firewall (extract_ports (extract_ips st line) line) line n) line n
  have e5 := check_connection_errors_rec
    (check_dns (check_firewall (extract_ports (extract_ips st line) line) line n)
      line n) line n
  obtain ⟨st', hrun, htot, hrec⟩ := tailChain_rec
    (check_connection_errors
      (check_dns (check_firewall (extract_ports (extract_ips st line) line) line n)
        line n) line n) line n
  refine ⟨st', hrun, ?_, fun m hm => ?_⟩
  · rw [htot, e5.1, e4.1, e3.1, e2.2, e1.2]
  · rcases hrec m hm with hm | hm
    · rcases e5.2 m hm with hm | hm
      · rcases e4.2 m hm with hm | hm
        · rcases e3.2 m hm with hm | hm
          · rw [e2.1, e1.1] at hm
            exact Or.inl hm
          · exact Or.inr hm
        · exact Or.inr hm
      · exact Or.inr hm
    · exact Or.inr hm

theorem parseFrom_total_bounds :
    ∀ (ls : List String) (st : State) (n : Nat),
      ∃ st', parseFrom st n ls = .ok st' ∧
        st'.total_lines = st.total_lines ∧
        ∀ m ∈ recordLineNumbers st',
          m ∈ recordLineNumbers st ∨ (n ≤ m ∧ m < n + ls.length) := by
  intro ls
  induction ls with
  | nil => exact fun st n => ⟨st, rfl, rfl, fun m hm => Or.inl hm⟩
  | cons l ls ih =>
    intro st n
    obtain ⟨st1, h1, htot1, hrec1⟩ := processLine_rec st n l
    obtain ⟨st2, h2, htot2, hrec2⟩ := ih st1 (n + 1)
    refine ⟨st2, ?_, htot2.trans htot1, fun m hm => ?_⟩
    · show (processLine st n l >>= fun st' => parseFrom st' (n + 1) ls) = .ok st2
      rw [h1, bind_ok_eq]
      exact h2
    · rcases hrec2 m hm with hm | hm
      · rcases hrec1 m hm with hm | hm
        · exact Or.inl hm
        · right
          subst hm
          simp only [List.length_cons]
          omega
      · right
        simp only [List.length_cons]
        omega

theorem isPrefixOf_append_self (l r : List Char) : (l.isPrefixOf (l ++ r)) = true := by
  induction l with
  | nil => simp [List.isPrefixOf]
  | cons a l ih => simp [List.isPrefixOf, ih]

theorem isPrefixOf_append_same (x u v : List Char) :
    ((x ++ u).isPrefixOf (x ++ v)) = (u.isPrefixOf v) := by
  induction x with
  | nil => simp
  | cons a x ih => simp [List.isPrefixOf, ih]

theorem nl_pre_false (preRest : List Char) (l : String)
    (h : l.data.head? ≠ some '\n') :
    (('\n' :: preRest).isPrefixOf l.data) = false := by
  rcases hd : l.data with _ | ⟨c, r⟩
  · simp [List.isPrefixOf]
  · rw [hd] at h
    simp only [List.head?_cons, ne_eq, Option.some.injEq] at h
    have hb : (('\n' : Char) == c) = false :=
      beq_eq_false_iff_ne.mpr fun hc => h hc.symm
    simp [List.isPrefixOf, hb]

/-- The report with the wall-clock `Generated:` line removed. -/
def scrubGenerated (ls : List String) : List String :=
  ls.filter fun l => !("  Generated: ".data.isPrefixOf l.data)

/-! ### Claim theorems -/

/-- Claim C1 (code bug evidence): on the single-line file of the spec's
Scenario 1, `_extract_ips` increments the source table at the first IP and
the destination table at the second IP once per `finditer` match on the
line — twice here, since the line holds two IPv4 literals — so the final
tables are `{10.0.0.5: 2}` and `{10.0.0.9: 2}`, not `{…: 1}` as the claim
states. -/
theorem claim1_extract_ips_double_count :
    (runParseO ["2024-05-01T10:15:00 DROP SRC=10.0.0.5 DST=10.0.0.9 SPT=443 DPT=8080"]).map
        State.source_ips = some [("10.0.0.5", 2)] ∧
    (runParseO ["2024-05-01T10:15:00 DROP SRC=10.0.0.5 DST=10.0.0.9 SPT=443 DPT=8080"]).map
        State.dest_ips = some [("10.0.0.9", 2)] := ⟨rfl, rfl⟩

/-- Claim C2: a line matching both a deny keyword and an allow keyword is
recorded as a deny entry and never as an allow entry, and the denied-IP
table is incremented once for every IPv4 literal occurrence found on the
line. -/
theorem claim2_deny_precedence (st : State) (line : String) (n : Nat)
    (hd : firewall_deny line = true) (_ha : firewall_allow line = true) :
    (check_firewall st line n).denied_entries
        = st.denied_entries ++ [(n, pyStrip line)] ∧
    (check_firewall st line n).allowed_entries = st.allowed_entries ∧
    ∀ ip, getCount (check_firewall st line n).denied_ips ip
        = getCount st.denied_ips ip + (ipFindAll line.data).count ip := by
  have h := foldl_bump_denied (ipFindAll line.data)
      { st with denied_entries := st.denied_entries ++ [(n, pyStrip line)] }
  simp only [check_firewall, if_pos hd]
  exact ⟨h.1, h.2.1, h.2.2⟩

/-- Witness for C2 at the line `"DROP ACCEPT 1.2.3.4"`. -/
theorem claim2_witness :
    firewall_deny "DROP ACCEPT 1.2.3.4" = true ∧
    firewall_allow "DROP ACCEPT 1.2.3.4" = true ∧
    (check_firewall ({} : State) "DROP ACCEPT 1.2.3.4" 1).denied_entries
        = [(1, "DROP ACCEPT 1.2.3.4")] ∧
    (check_firewall ({} : State) "DROP ACCEPT 1.2.3.4" 1).allowed_entries = [] ∧
    getCount (check_firewall ({} : State) "DROP ACCEPT 1.2.3.4" 1).denied_ips "1.2.3.4"
        = 1 := by
  have h := claim2_deny_precedence ({} : State) "DROP ACCEPT 1.2.3.4" 1 (by rfl) (by rfl)
  exact ⟨by rfl, by rfl, h.1.trans (by rfl), h.2.1.trans (by rfl),
    (h.2.2 "1.2.3.4").trans (by rfl)⟩

/-- Claim C3: for each possible bucket `b`, a line increments the
error-timeline count at `b` by exactly one when its (at most one,
ISO-first) recognized timestamp yields bucket `b` and the line matches
firewall-deny or connection-error, and by zero otherwise; with no
recognized timestamp no bucket changes. -/
theorem claim3_timeline_single_increment (st : State) (line : String) (b : String) :
    getCount (extract_timestamp_bucket st line).error_timeline b
      = getCount st.error_timeline b +
        (if hourBucket line = some b ∧ (firewall_deny line || connection_error line) = true
         then 1 else 0) := by
  rcases hiso : timestamp_iso line with _ | ts
  · rcases hsys : timestamp_syslog line with _ | ts
    · simp [extract_timestamp_bucket, hourBucket, hiso, hsys]
    · rcases hq : (firewall_deny line || connection_error line) with _ | _
      · simp [extract_timestamp_bucket, hourBucket, hiso, hsys, hq]
      · simp only [extract_timestamp_bucket, hourBucket, hiso, hsys, hq,
          Option.map_some', getCount_bump, Option.some.injEq, and_true]
        by_cases hb : ts.take 10 = b <;> simp [hb, getCount_bump]
  · rcases hq : (firewall_deny line || connection_error line) with _ | _
    · simp [extract_timestamp_bucket, hourBucket, hiso, hq]
    · simp only [extract_timestamp_bucket, hourBucket, hiso, hq,
        getCount_bump, Option.some.injEq, and_true]
      by_cases hb : ts.take 13 = b <;> simp [hb, getCount_bump]

/-- Claim C5: when the latency pattern matches a line with payload `s`
parsing to `v`, the line is recorded as a high-latency entry (with value
`v`) exactly when `v` is strictly greater than 100; otherwise the state is
unchanged. -/
theorem claim5_latency_threshold (st : State) (line : String) (n : Nat)
    (s : String) (v : ℚ) (hs : latencySearch line = some s)
    (hv : pyFloat s = some v) :
    ∃ st', check_latency st line n = .ok st' ∧
      (st'.high_latency = st.high_latency ++ [(n, v, pyStrip line)] ↔ 100 < v) ∧
      (st' = st ↔ ¬ 100 < v) := by
  simp only [check_latency, hs, hv]
  by_cases hgr : (100 : ℚ) < v
  · rw [if_pos hgr]
    refine ⟨_, rfl, by simp [hgr], ?_⟩
    constructor
    · intro he
      have hlen := congrArg (fun s => s.high_latency.length) he
      simp at hlen
    · intro hn
      exact (hn hgr).elim
  · rw [if_neg hgr]
    refine ⟨_, rfl, ?_, by simp [hgr]⟩
    constructor
    · intro he
      have hlen := congrArg List.length he
      simp at hlen
    · intro h100
      exact (hgr h100).elim

/-- Witness for C5 at the spec's Scenario 2 lines. -/
theorem claim5_witness :
    latencySearch "rtt=250.5 ms to host" = some "250.5" ∧
    pyFloat "250.5" = some (decVal false 250 5 1) ∧
    (∃ st', check_latency ({} : State) "rtt=250.5 ms to host" 1 = .ok st' ∧
        st'.high_latency = [(1, decVal false 250 5 1, "rtt=250.5 ms to host")]) ∧
    latencySearch "rtt=80 ms to host" = some "80" ∧
    pyFloat "80" = some (decVal false 80 0 0) ∧
    ∃ st', check_latency ({} : State) "rtt=80 ms to host" 1 = .ok st' ∧
        st'.high_latency = [] := by
  obtain ⟨s1, h1, hiff1, -⟩ :=
    claim5_latency_threshold ({} : State) "rtt=250.5 ms to host" 1 "250.5"
      (decVal false 250 5 1) rfl rfl
  obtain ⟨s2, h2, -, hiff2⟩ :=
    claim5_latency_threshold ({} : State) "rtt=80 ms to host" 1 "80"
      (decVal false 80 0 0) rfl rfl
  have hv1 : (100 : ℚ) < decVal false 250 5 1 := by norm_num [decVal]
  have hv2 : ¬ (100 : ℚ) < decVal false 80 0 0 := by norm_num [decVal]
  refine ⟨rfl, rfl, ⟨s1, h1, ?_⟩, rfl, rfl, ⟨s2, h2, ?_⟩⟩
  · exact (hiff1.mpr hv1).trans (by rfl)
  · rw [hiff2.mpr hv2]

/-- Claim C10: any line containing `refused` (case-insensitively) matches
both the firewall-deny and the DNS-failure patterns, so it is recorded as
a deny entry (bumping the denied-IP table once per IPv4 literal
occurrence) and as a DNS failure (and not as a DNS query). -/
theorem claim10_refused_dual (st : State) (line : String) (n : Nat)
    (h : containsCI line "refused" = true) :
    firewall_deny line = true ∧ dns_failure line = true ∧
    (check_firewall st line n).denied_entries
        = st.denied_entries ++ [(n, pyStrip line)] ∧
    (∀ ip, getCount (check_firewall st line n).denied_ips ip
        = getCount st.denied_ips ip + (ipFindAll line.data).count ip) ∧
    (check_dns st line n).dns_failures = st.dns_failures ++ [(n, pyStrip line)] ∧
    (check_dns st line n).dns_queries = st.dns_queries := by
  have hd := containsCI_refused_deny line h
  have hf := containsCI_refused_dnsfail line h
  have hb := foldl_bump_denied (ipFindAll line.data)
      { st with denied_entries := st.denied_entries ++ [(n, pyStrip line)] }
  refine ⟨hd, hf, ?_, ?_, ?_, ?_⟩
  · simp only [check_firewall, if_pos hd]
    exact hb.1
  · simp only [check_firewall, if_pos hd]
    exact hb.2.2
  · simp [check_dns, hf]
  · simp [check_dns, hf]

/-- Claim C6: the classification pass is total — no numeric payload of a
latency or packet-loss match ever fails to parse (so the pass never
aborts), and the latency / packet-loss checks of a line leave every other
category of the state untouched, so the line still contributes its other
observations. -/
theorem claim6_numeric_parse_never_aborts :
    (∀ lines : List String, ∃ st, runParse lines = .ok st) ∧
    (∀ s line, latencySearch line = some s ∨ packetLossSearch line = some s →
      (pyFloat s).isSome = true) ∧
    (∀ st line n, ∃ stl, check_latency st line n = .ok stl ∧
      stl.denied_entries = st.denied_entries ∧
      stl.allowed_entries = st.allowed_entries ∧
      stl.connection_errors = st.connection_errors ∧
      stl.dns_failures = st.dns_failures ∧
      stl.dns_queries = st.dns_queries ∧
      stl.packet_loss_entries = st.packet_loss_entries ∧
      stl.dhcp_events = st.dhcp_events ∧
      stl.source_ips = st.source_ips ∧
      stl.dest_ips = st.dest_ips ∧
      stl.denied_ips = st.denied_ips ∧
      stl.error_timeline = st.error_timeline ∧
      stl.ports_targeted = st.ports_targeted) ∧
    ∀ st line n, ∃ stp, check_packet_loss st line n = .ok stp ∧
      stp.denied_entries = st.denied_entries ∧
      stp.allowed_entries = st.allowed_entries ∧
      stp.connection_errors = st.connection_errors ∧
      stp.dns_failures = st.dns_failures ∧
      stp.dns_queries = st.dns_queries ∧
      stp.high_latency = st.high_latency ∧
      stp.dhcp_events = st.dhcp_events ∧
      stp.source_ips = st.source_ips ∧
      stp.dest_ips = st.dest_ips ∧
      stp.denied_ips = st.denied_ips ∧
      stp.error_timeline = st.error_timeline ∧
      stp.ports_targeted = st.ports_targeted := by
  refine ⟨?_, ?_, ?_, ?_⟩
  · intro lines
    obtain ⟨st, h, -, -⟩ :=
      parseFrom_total_bounds lines { total_lines := lines.length } 1
    exact ⟨st, h⟩
  · rintro s line (h | h)
    · exact latency_payload_parses line s h
    · exact loss_payload_parses line s h
  · intro st line n
    rcases check_latency_cases st line n with h | ⟨v, h⟩ <;>
      exact ⟨_, h, rfl, rfl, rfl, rfl, rfl, rfl, rfl, rfl, rfl, rfl, rfl, rfl⟩
  · intro st line n
    rcases check_packet_loss_cases st line n with h | ⟨v, h⟩ <;>
      exact ⟨_, h, rfl, rfl, rfl, rfl, rfl, rfl, rfl, rfl, rfl, rfl, rfl, rfl⟩

/-- Claim C9: `total_lines` is the number of lines read, and every
MatchRecord in the eight per-category lists carries a line number in
`[1, total_lines]`. -/
theorem claim9_line_number_bounds (lines : List String) :
    ∃ st, runParse lines = .ok st ∧ st.total_lines = lines.length ∧
      ∀ m ∈ recordLineNumbers st, 1 ≤ m ∧ m ≤ st.total_lines := by
  obtain ⟨st, h, htot, hrec⟩ :=
    parseFrom_total_bounds lines { total_lines := lines.length } 1
  refine ⟨st, h, htot.trans rfl, fun m hm => ?_⟩
  rcases hrec m hm with h0 | h0
  · simp [recordLineNumbers] at h0
  · rw [htot]
    show 1 ≤ m ∧ m ≤ lines.length
    omega

/-- Claim C8: the pipeline is a function of the input lines, the file
path and `top_n` alone; running it twice (at different wall-clock times
`t1`, `t2`) yields identical reports once the `Generated:` line is
excluded — in particular the top-N order of equally-counted keys, produced
by the embedded stable sort, is identical across the two runs. -/
theorem claim8_deterministic_report (lines : List String) (filepath : String)
    (top_n : Nat) (t1 t2 : String) :
    (runParse lines).map
        (fun st => scrubGenerated (reportLines filepath t1 st top_n))
      = (runParse lines).map
        (fun st => scrubGenerated (reportLines filepath t2 st top_n)) := by
  cases h : runParse lines with
  | error e => rfl
  | ok st =>
    show Except.ok (scrubGenerated (reportLines filepath t1 st top_n))
        = Except.ok (scrubGenerated (reportLines filepath t2 st top_n))
    refine congrArg Except.ok ?_
    have hgen : ∀ t : String,
        ((("  Generated: ".data.isPrefixOf ("  Generated: " ++ t).data)) = true) := by
      intro t
      rw [String.data_append]
      exact isPrefixOf_append_self _ _
    have hsrc : ("  Generated: ".data.isPrefixOf ("  Source: " ++ filepath).data) = false := by
      rw [String.data_append]; rfl
    have htot : ("  Generated: ".data.isPrefixOf
        ("  Total lines parsed: " ++ toString st.total_lines).data) = false := by
      rw [String.data_append]; rfl
    have hbord : ("  Generated: ".data.isPrefixOf border.data) = false := rfl
    have httl : ("  Generated: ".data.isPrefixOf
        "  NETWORK LOG TROUBLESHOOTING REPORT".data) = false := rfl
    have hhead : ∀ t : String,
        List.filter (fun l => !("  Generated: ".data.isPrefixOf l.data))
          [border, "  NETWORK LOG TROUBLESHOOTING REPORT", "  Source: " ++ filepath,
           "  Total lines parsed: " ++ toString st.total_lines,
           "  Generated: " ++ t, border]
        = [border, "  NETWORK LOG TROUBLESHOOTING REPORT", "  Source: " ++ filepath,
           "  Total lines parsed: " ++ toString st.total_lines, border] := by
      intro t
      simp only [List.filter_cons, List.filter_nil, hgen, hsrc, htot, hbord, httl,
        Bool.not_true, Bool.not_false, Bool.false_eq_true, if_true, if_false]
    unfold reportLines scrubGenerated
    simp only [List.filter_append]
    rw [hhead t1, hhead t2]

/-- Witness for C6: a concrete packet-loss payload parses, and a concrete
run of the pass completes. -/
theorem claim6_witness :
    (pyFloat "2.3").isSome = true ∧
    ∃ st, runParse ["rtt=250.5 ms to host"] = .ok st :=
  ⟨claim6_numeric_parse_never_aborts.2.1 "2.3" "1.2.3 loss" (Or.inr rfl),
   claim6_numeric_parse_never_aborts.1 ["rtt=250.5 ms to host"]⟩

/-- Witness for C9 on a concrete two-line file. -/
theorem claim9_witness :
    ∃ st, runParse ["DROP 1.2.3.4", "ACCEPT conn"] = .ok st ∧
      st.total_lines = 2 ∧
      ∀ m ∈ recordLineNumbers st, 1 ≤ m ∧ m ≤ st.total_lines := by
  obtain ⟨st, h, htot, hb⟩ :=
    claim9_line_number_bounds ["DROP 1.2.3.4", "ACCEPT conn"]
  exact ⟨st, h, htot.trans rfl, hb⟩

theorem ne_nl_of_head_eq {l : String} {c : Char} (h : l.data.head? = some c)
    (hc : ¬ c = '\n') : l.data.head? ≠ some '\n' := by
  rw [h]
  simp [hc]

theorem mem_guarded {l hdr : String} {c : Bool} {entries : List String}
    (hl : l ∈ (if c = true then ([] : List String) else hdr :: entries))
    (he : ∀ e ∈ entries, e.data.head? = some ' ') :
    l.data.head? = some ' ' ∨ (c = false ∧ l = hdr) := by
  rcases c
  · simp only [Bool.false_eq_true, if_false, List.mem_cons] at hl
    rcases hl with rfl | hl
    · exact Or.inr ⟨rfl, rfl⟩
    · exact Or.inl (he l hl)
  · simp at hl

/-- Every element of the rendered report either does not start with a
newline, or is one of the section headers (present only when the section's
collection is nonempty) or one of the two fixed newline-led elements. -/
theorem reportLines_shape (fp now : String) (st : State) (n : Nat) (l : String)
    (hl : l ∈ reportLines fp now st n) :
    l.data.head? ≠ some '\n' ∨
    l = "\n[SUMMARY]" ∨ l = "\n" ++ border ∨
    (st.denied_ips.isEmpty = false ∧
      l = "\n[TOP " ++ toString n ++ " IPs IN DENY/DROP ENTRIES]") ∨
    (st.source_ips.isEmpty = false ∧
      l = "\n[TOP " ++ toString n ++ " SOURCE IPs]") ∨
    (st.dest_ips.isEmpty = false ∧
      l = "\n[TOP " ++ toString n ++ " DESTINATION IPs]") ∨
    (st.ports_targeted.isEmpty = false ∧
      l = "\n[TOP " ++ toString n ++ " TARGETED PORTS]") ∨
    (st.error_timeline.isEmpty = false ∧
      l = "\n[ERROR TIMELINE (errors per time bucket)]") ∨
    (st.connection_errors.isEmpty = false ∧
      l = "\n[CONNECTION ERRORS — showing first " ++ toString n ++ "]") ∨
    (st.dns_failures.isEmpty = false ∧
      l = "\n[DNS FAILURES — showing first " ++ toString n ++ "]") ∨
    (st.high_latency.isEmpty = false ∧
      l = "\n[HIGH LATENCY ENTRIES — showing first " ++ toString n ++ "]") ∨
    (st.packet_loss_entries.isEmpty = false ∧
      l = "\n[PACKET LOSS ENTRIES — showing first " ++ toString n ++ "]") ∨
    (st.dhcp_events.isEmpty = false ∧
      l = "\n[DHCP EVENTS — showing first " ++ toString n ++ "]") ∨
    (st.denied_entries.isEmpty = false ∧
      l = "\n[FIREWALL DENY/DROP SAMPLE — showing first " ++ toString n ++ "]") := by
  unfold reportLines at hl
  simp only [List.mem_append, or_assoc] at hl
  rcases hl with h | h | h | h | h | h | h | h | h | h | h | h | h | h
  · -- header block
    simp only [List.mem_cons, List.not_mem_nil, or_false] at h
    rcases h with rfl | rfl | rfl | rfl | rfl | rfl <;>
      exact Or.inl (ne_nl_of_head_eq
        (by first | (simp only [String.data_append]; rfl) | rfl) (by decide))
  · -- summary block
    unfold summaryLines at h
    simp only [List.mem_cons, List.not_mem_nil, or_false] at h
    rcases h with rfl | rfl | rfl | rfl | rfl | rfl | rfl | rfl
    · exact Or.inr (Or.inl rfl)
    all_goals
      exact Or.inl (ne_nl_of_head_eq
        (by first | (simp only [String.data_append]; rfl) | rfl) (by decide))
  · unfold deniedIpsSection at h
    rcases mem_guarded h (by
        intro e he
        simp only [List.mem_map] at he
        obtain ⟨p, -, rfl⟩ := he
        first | (simp only [String.data_append]; rfl) | rfl) with h1 | ⟨hg, rfl⟩
    · exact Or.inl (ne_nl_of_head_eq h1 (by decide))
    · exact Or.inr (Or.inr (Or.inr (Or.inl ⟨hg, rfl⟩)))
  · unfold sourceIpsSection at h
    rcases mem_guarded h (by
        intro e he
        simp only [List.mem_map] at he
        obtain ⟨p, -, rfl⟩ := he
        first | (simp only [String.data_append]; rfl) | rfl) with h1 | ⟨hg, rfl⟩
    · exact Or.inl (ne_nl_of_head_eq h1 (by decide))
    · exact Or.inr (Or.inr (Or.inr (Or.inr (Or.inl ⟨hg, rfl⟩))))
  · unfold destIpsSection at h
    rcases mem_guarded h (by
        intro e he
        simp only [List.mem_map] at he
        obtain ⟨p, -, rfl⟩ := he
        first | (simp only [String.data_append]; rfl) | rfl) with h1 | ⟨hg, rfl⟩
    · exact Or.inl (ne_nl_of_head_eq h1 (by decide))
    · exact Or.inr (Or.inr (Or.inr (Or.inr (Or.inr (Or.inl ⟨hg, rfl⟩)))))
  · unfold portsSection at h
    rcases mem_guarded h (by
        intro e he
        simp only [List.mem_map] at he
        obtain ⟨p, -, rfl⟩ := he
        first | (simp only [String.data_append]; rfl) | rfl) with h1 | ⟨hg, rfl⟩
    · exact Or.inl (ne_nl_of_head_eq h1 (by decide))
    · exact Or.inr (Or.inr (Or.inr (Or.inr (Or.inr (Or.inr (Or.inl ⟨hg, rfl⟩))))))
  · unfold timelineSection at h
    rcases mem_guarded h (by
        intro e he
        simp only [List.mem_map] at he
        obtain ⟨p, -, rfl⟩ := he
        first | (simp only [String.data_append]; rfl) | rfl) with h1 | ⟨hg, rfl⟩
    · exact Or.inl (ne_nl_of_head_eq h1 (by decide))
    · exact Or.inr (Or.inr (Or.inr (Or.inr (Or.inr (Or.inr (Or.inr
        (Or.inl ⟨hg, rfl⟩)))))))
  · unfold connErrSection at h
    rcases mem_guarded h (by
        intro e he
        simp only [List.mem_map] at he
        obtain ⟨p, -, rfl⟩ := he
        first | (simp only [String.data_append]; rfl) | rfl) with h1 | ⟨hg, rfl⟩
    · exact Or.inl (ne_nl_of_head_eq h1 (by decide))
    · exact Or.inr (Or.inr (Or.inr (Or.inr (Or.inr (Or.inr (Or.inr (Or.inr
        (Or.inl ⟨hg, rfl⟩))))))))
  · unfold dnsFailuresSection at h
    rcases mem_guarded h (by
        intro e he
        simp only [List.mem_map] at he
        obtain ⟨p, -, rfl⟩ := he
        first | (simp only [String.data_append]; rfl) | rfl) with h1 | ⟨hg, rfl⟩
    · exact Or.inl (ne_nl_of_head_eq h1 (by decide))
    · exact Or.inr (Or.inr (Or.inr (Or.inr (Or.inr (Or.inr (Or.inr (Or.inr
        (Or.inr (Or.inl ⟨hg, rfl⟩)))))))))
  · unfold highLatencySection at h
    rcases mem_guarded h (by
        intro e he
        simp only [List.mem_map] at he
        obtain ⟨p, -, rfl⟩ := he
        first | (simp only [String.data_append]; rfl) | rfl) with h1 | ⟨hg, rfl⟩
    · exact Or.inl (ne_nl_of_head_eq h1 (by decide))
    · exact Or.inr (Or.inr (Or.inr (Or.inr (Or.inr (Or.inr (Or.inr (Or.inr
        (Or.inr (Or.inr (Or.inl ⟨hg, rfl⟩))))))))))
  · unfold packetLossSection at h
    rcases mem_guarded h (by
        intro e he
        simp only [List.mem_map] at he
        obtain ⟨p, -, rfl⟩ := he
        first | (simp only [String.data_append]; rfl) | rfl) with h1 | ⟨hg, rfl⟩
    · exact Or.inl (ne_nl_of_head_eq h1 (by decide))
    · exact Or.inr (Or.inr (Or.inr (Or.inr (Or.inr (Or.inr (Or.inr (Or.inr
        (Or.inr (Or.inr (Or.inr (Or.inl ⟨hg, rfl⟩)))))))))))
  · unfold dhcpSection at h
    rcases mem_guarded h (by
        intro e he
        simp only [List.mem_map] at he
        obtain ⟨p, -, rfl⟩ := he
        first | (simp only [String.data_append]; rfl) | rfl) with h1 | ⟨hg, rfl⟩
    · exact Or.inl (ne_nl_of_head_eq h1 (by decide))
    · exact Or.inr (Or.inr (Or.inr (Or.inr (Or.inr (Or.inr (Or.inr (Or.inr
        (Or.inr (Or.inr (Or.inr (Or.inr (Or.inl ⟨hg, rfl⟩))))))))))))
  · unfold denySampleSection at h
    rcases mem_guarded h (by
        intro e he
        simp only [List.mem_map] at he
        obtain ⟨p, -, rfl⟩ := he
        first | (simp only [String.data_append]; rfl) | rfl) with h1 | ⟨hg, rfl⟩
    · exact Or.inl (ne_nl_of_head_eq h1 (by decide))
    · exact Or.inr (Or.inr (Or.inr (Or.inr (Or.inr (Or.inr (Or.inr (Or.inr
        (Or.inr (Or.inr (Or.inr (Or.inr (Or.inr ⟨hg, rfl⟩))))))))))))
  · -- trailing block
    simp only [List.mem_cons, List.not_mem_nil, or_false] at h
    rcases h with rfl | rfl | rfl
    · exact Or.inr (Or.inr (Or.inl rfl))
    · exact Or.inl (ne_nl_of_head_eq (by rfl) (by decide))
    · exact Or.inl (ne_nl_of_head_eq
        (by first | (simp only [String.data_append]; rfl) | rfl) (by decide))

/-- The twelve month abbreviations the claim speaks of (from the spec's
words; the regex itself never consults such a list). -/
def monthAbbrevs : List String :=
  ["Jan", "Feb", "Mar", "Apr", "May", "Jun",
   "Jul", "Aug", "Sep", "Oct", "Nov", "Dec"]

/-- The structural shape `timestamp_syslog` actually requires: any three
word characters at the start of the line (not necessarily a month
abbreviation), whitespace, a one- or two-digit day, whitespace, and
`HH:MM:SS`. -/
def SyslogShape (l : List Char) : Prop :=
  ∃ (a b c : Char) (w1 day w2 : List Char)
    (h1 h2 m1 m2 s1 s2 : Char) (rest : List Char),
    l = a :: b :: c :: (w1 ++ day ++ w2 ++
      [h1, h2, ':', m1, m2, ':', s1, s2] ++ rest) ∧
    isWordChar a = true ∧ isWordChar b = true ∧ isWordChar c = true ∧
    w1 ≠ [] ∧ (∀ x ∈ w1, isSpaceChar x = true) ∧
    day ≠ [] ∧ day.length ≤ 2 ∧ (∀ x ∈ day, x.isDigit = true) ∧
    w2 ≠ [] ∧ (∀ x ∈ w2, isSpaceChar x = true) ∧
    h1.isDigit = true ∧ h2.isDigit = true ∧ m1.isDigit = true ∧
    m2.isDigit = true ∧ s1.isDigit = true ∧ s2.isDigit = true

theorem dropWhile_append_stop (p : Char → Bool) (l : List Char) (x : Char)
    (r : List Char) (hl : ∀ c ∈ l, p c = true) (hx : p x = false) :
    (l ++ x :: r).dropWhile p = x :: r := by
  induction l with
  | nil => simp [List.dropWhile_cons, hx]
  | cons a l ih =>
    have ha : p a = true := hl a (by simp)
    simp only [List.cons_append, List.dropWhile_cons, ha, if_pos]
    exact ih fun c hc => hl c (by simp [hc])

theorem space_not_digit (c : Char) (h : isSpaceChar c = true) :
    c.isDigit = false := by
  simp only [isSpaceChar, Bool.or_eq_true, decide_eq_true_eq] at h
  rcases h with ((((rfl | rfl) | rfl) | rfl) | rfl) | rfl <;> decide

theorem timePart_isSome_iff (l : List Char) :
    (timePart l).isSome = true ↔ ∃ h1 h2 m1 m2 s1 s2 rest,
      l = h1 :: h2 :: ':' :: m1 :: m2 :: ':' :: s1 :: s2 :: rest ∧
      h1.isDigit = true ∧ h2.isDigit = true ∧ m1.isDigit = true ∧
      m2.isDigit = true ∧ s1.isDigit = true ∧ s2.isDigit = true := by
  constructor
  · intro h
    unfold timePart at h
    split at h
    · next h1 h2 m1 m2 s1 s2 rest =>
      split at h
      · next hd =>
        simp only [Bool.and_eq_true] at hd
        exact ⟨h1, h2, m1, m2, s1, s2, rest, rfl,
          hd.1.1.1.1.1, hd.1.1.1.1.2, hd.1.1.1.2, hd.1.1.2, hd.1.2, hd.2⟩
      · simp at h
    · simp at h
  · rintro ⟨h1, h2, m1, m2, s1, s2, rest, rfl, hd1, hd2, hd3, hd4, hd5, hd6⟩
    simp [timePart, hd1, hd2, hd3, hd4, hd5, hd6]

theorem isSome_orElse (a b : Option (List Char)) :
    (a <|> b).isSome = (a.isSome || b.isSome) := by
  cases a <;> simp [Option.orElse]

theorem isSome_opt_map {α β : Type} (f : α → β) (o : Option α) :
    (o.map f).isSome = o.isSome := by
  cases o <;> rfl

theorem dayTime2_shape (r : List Char) (h : (dayTime2 r).isSome = true) :
    ∃ day w2 h1 h2 m1 m2 s1 s2 rest,
      r = day ++ w2 ++ [h1, h2, ':', m1, m2, ':', s1, s2] ++ rest ∧
      day ≠ [] ∧ day.length ≤ 2 ∧ (∀ x ∈ day, x.isDigit = true) ∧
      w2 ≠ [] ∧ (∀ x ∈ w2, isSpaceChar x = true) ∧
      h1.isDigit = true ∧ h2.isDigit = true ∧ m1.isDigit = true ∧
      m2.isDigit = true ∧ s1.isDigit = true ∧ s2.isDigit = true := by
  unfold dayTime2 at h
  split at h
  · next d1 d2 rest0 =>
    split at h
    · next hd =>
      simp only [Bool.and_eq_true] at hd
      split at h
      · simp at h
      · next hwE =>
        rw [isSome_opt_map] at h
        obtain ⟨h1, h2, m1, m2, s1, s2, rest2, heq, hd1, hd2, hd3, hd4, hd5, hd6⟩ :=
          (timePart_isSome_iff _).mp h
        have hsplit := (List.takeWhile_append_dropWhile isSpaceChar rest0).symm
        rw [heq] at hsplit
        refine ⟨[d1, d2], rest0.takeWhile isSpaceChar, h1, h2, m1, m2, s1, s2, rest2,
          ?_, by simp, by simp, ?_, fun hnil => hwE (by simp [hnil]),
          fun x hx => List.mem_takeWhile_imp hx, hd1, hd2, hd3, hd4, hd5, hd6⟩
        · conv_lhs => rw [hsplit]
          simp
        · intro x hx
          simp only [List.mem_cons, List.mem_singleton, List.not_mem_nil,
            or_false] at hx
          rcases hx with rfl | rfl
          · exact hd.1
          · exact hd.2
    · simp at h
  · simp at h

theorem dayTime1_shape (r : List Char) (h : (dayTime1 r).isSome = true) :
    ∃ day w2 h1 h2 m1 m2 s1 s2 rest,
      r = day ++ w2 ++ [h1, h2, ':', m1, m2, ':', s1, s2] ++ rest ∧
      day ≠ [] ∧ day.length ≤ 2 ∧ (∀ x ∈ day, x.isDigit = true) ∧
      w2 ≠ [] ∧ (∀ x ∈ w2, isSpaceChar x = true) ∧
      h1.isDigit = true ∧ h2.isDigit = true ∧ m1.isDigit = true ∧
      m2.isDigit = true ∧ s1.isDigit = true ∧ s2.isDigit = true := by
  unfold dayTime1 at h
  split at h
  · next d1 rest0 =>
    split at h
    · next hd =>
      split at h
      · simp at h
      · next hwE =>
        rw [isSome_opt_map] at h
        obtain ⟨h1, h2, m1, m2, s1, s2, rest2, heq, hd1, hd2, hd3, hd4, hd5, hd6⟩ :=
          (timePart_isSome_iff _).mp h
        have hsplit := (List.takeWhile_append_dropWhile isSpaceChar rest0).symm
        rw [heq] at hsplit
        refine ⟨[d1], rest0.takeWhile isSpaceChar, h1, h2, m1, m2, s1, s2, rest2,
          ?_, by simp, by simp, ?_, fun hnil => hwE (by simp [hnil]),
          fun x hx => List.mem_takeWhile_imp hx, hd1, hd2, hd3, hd4, hd5, hd6⟩
        · conv_lhs => rw [hsplit]
          simp
        · intro x hx
          simp only [List.mem_singleton, List.mem_cons, List.not_mem_nil,
            or_false] at hx
          subst hx
          exact hd
    · simp at h
  · simp at h

theorem dayTime_shape (r : List Char) (h : (dayTime r).isSome = true) :
    ∃ day w2 h1 h2 m1 m2 s1 s2 rest,
      r = day ++ w2 ++ [h1, h2, ':', m1, m2, ':', s1, s2] ++ rest ∧
      day ≠ [] ∧ day.length ≤ 2 ∧ (∀ x ∈ day, x.isDigit = true) ∧
      w2 ≠ [] ∧ (∀ x ∈ w2, isSpaceChar x = true) ∧
      h1.isDigit = true ∧ h2.isDigit = true ∧ m1.isDigit = true ∧
      m2.isDigit = true ∧ s1.isDigit = true ∧ s2.isDigit = true := by
  unfold dayTime at h
  rw [isSome_orElse, Bool.or_eq_true] at h
  rcases h with h | h
  · exact dayTime2_shape r h
  · exact dayTime1_shape r h

theorem dayTime_of_shape (day w2 : List Char) (h1 h2 m1 m2 s1 s2 : Char)
    (rest : List Char) (hdne : day ≠ []) (hdlen : day.length ≤ 2)
    (hddig : ∀ x ∈ day, x.isDigit = true) (hw2 : w2 ≠ [])
    (hw2sp : ∀ x ∈ w2, isSpaceChar x = true)
    (ht1 : h1.isDigit = true) (ht2 : h2.isDigit = true)
    (ht3 : m1.isDigit = true) (ht4 : m2.isDigit = true)
    (ht5 : s1.isDigit = true) (ht6 : s2.isDigit = true) :
    (dayTime (day ++ w2 ++ [h1, h2, ':', m1, m2, ':', s1, s2] ++ rest)).isSome
      = true := by
  obtain ⟨s0, w2', rfl⟩ := List.exists_cons_of_ne_nil hw2
  unfold dayTime
  rw [isSome_orElse, Bool.or_eq_true]
  rcases day with _ | ⟨d0, _ | ⟨d1, _ | ⟨d2, dt⟩⟩⟩
  · exact absurd rfl hdne
  · right
    have hd0 : d0.isDigit = true := hddig d0 (by simp)
    have hR : ([d0] ++ (s0 :: w2') ++ [h1, h2, ':', m1, m2, ':', s1, s2] ++ rest)
        = d0 :: ((s0 :: w2') ++
            h1 :: h2 :: ':' :: m1 :: m2 :: ':' :: s1 :: s2 :: rest) := by
      simp
    rw [hR]
    simp only [dayTime1, hd0, if_true]
    rw [takeWhile_append_stop isSpaceChar (s0 :: w2') h1 _ hw2sp
        (isDigit_not_space h1 ht1),
      dropWhile_append_stop isSpaceChar (s0 :: w2') h1 _ hw2sp
        (isDigit_not_space h1 ht1)]
    simp [timePart, ht1, ht2, ht3, ht4, ht5, ht6]
  · left
    have hd0 : d0.isDigit = true := hddig d0 (by simp)
    have hd1 : d1.isDigit = true := hddig d1 (by simp)
    have hR : ([d0, d1] ++ (s0 :: w2') ++ [h1, h2, ':', m1, m2, ':', s1, s2] ++ rest)
        = d0 :: d1 :: ((s0 :: w2') ++
            h1 :: h2 :: ':' :: m1 :: m2 :: ':' :: s1 :: s2 :: rest) := by
      simp
    rw [hR]
    simp only [dayTime2, hd0, hd1, Bool.and_self, if_true]
    rw [takeWhile_append_stop isSpaceChar (s0 :: w2') h1 _ hw2sp
        (isDigit_not_space h1 ht1),
      dropWhile_append_stop isSpaceChar (s0 :: w2') h1 _ hw2sp
        (isDigit_not_space h1 ht1)]
    simp [timePart, ht1, ht2, ht3, ht4, ht5, ht6]
  · simp at hdlen

theorem syslogAt_isSome_iff (l : List Char) :
    (syslogAt l).isSome = true ↔ SyslogShape l := by
  constructor
  · intro h
    unfold syslogAt at h
    split at h
    · next a b c r =>
      split at h
      · next hw =>
        simp only [Bool.and_eq_true] at hw
        split at h
        · simp at h
        · next hwE =>
          rw [isSome_opt_map] at h
          obtain ⟨day, w2, h1, h2, m1, m2, s1, s2, rest, heq, hdne, hdlen,
            hddig, hw2, hw2sp, ht1, ht2, ht3, ht4, ht5, ht6⟩ := dayTime_shape _ h
          have hsplit := (List.takeWhile_append_dropWhile isSpaceChar r).symm
          rw [heq] at hsplit
          refine ⟨a, b, c, r.takeWhile isSpaceChar, day, w2, h1, h2, m1, m2, s1, s2,
            rest, ?_, hw.1.1, hw.1.2, hw.2,
            fun hnil => hwE (by simp [hnil]),
            fun x hx => List.mem_takeWhile_imp hx, hdne, hdlen, hddig, hw2, hw2sp,
            ht1, ht2, ht3, ht4, ht5, ht6⟩
          conv_lhs => rw [hsplit]
          simp
      · simp at h
    · simp at h
  · rintro ⟨a, b, c, w1, day, w2, h1, h2, m1, m2, s1, s2, rest, rfl, hwa, hwb, hwc,
      hw1, hw1sp, hdne, hdlen, hddig, hw2, hw2sp, ht1, ht2, ht3, ht4, ht5, ht6⟩
    obtain ⟨s0, w1', rfl⟩ := List.exists_cons_of_ne_nil hw1
    obtain ⟨d0, day', rfl⟩ := List.exists_cons_of_ne_nil hdne
    have hd0 : d0.isDigit = true := hddig d0 (by simp)
    have hR : ((s0 :: w1') ++ (d0 :: day') ++ w2 ++
          [h1, h2, ':', m1, m2, ':', s1, s2] ++ rest)
        = (s0 :: w1') ++ (d0 :: (day' ++ w2 ++
            [h1, h2, ':', m1, m2, ':', s1, s2] ++ rest)) := by
      simp
    rw [hR]
    simp only [syslogAt, hwa, hwb, hwc, Bool.and_self, if_true]
    rw [takeWhile_append_stop isSpaceChar (s0 :: w1') d0 _ hw1sp
        (isDigit_not_space d0 hd0),
      dropWhile_append_stop isSpaceChar (s0 :: w1') d0 _ hw1sp
        (isDigit_not_space d0 hd0)]
    simp only [List.isEmpty_cons, Bool.false_eq_true, if_false, isSome_opt_map]
    have := dayTime_of_shape (d0 :: day') w2 h1 h2 m1 m2 s1 s2 rest
      (by simp) hdlen hddig hw2 hw2sp ht1 ht2 ht3 ht4 ht5 ht6
    rw [show (d0 :: (day' ++ w2 ++ [h1, h2, ':', m1, m2, ':', s1, s2] ++ rest))
        = ((d0 :: day') ++ w2 ++ [h1, h2, ':', m1, m2, ':', s1, s2] ++ rest) by
      simp]
    exact this

/-- Claim C4 (amended): `timestamp_syslog` matches a line iff the line
starts with three word characters (not necessarily a month abbreviation)
followed by whitespace, a one- or two-digit day, whitespace, and
`HH:MM:SS`. -/
theorem claim4_amended_syslog_shape (s : String) :
    (timestamp_syslog s).isSome = true ↔ SyslogShape s.data := by
  unfold timestamp_syslog
  rw [show ∀ o : Option (List Char), (o.map String.mk).isSome = o.isSome from
    fun o => by cases o <;> rfl]
  exact syslogAt_isSome_iff s.data

/-- Counterexample to claim C4 as stated: the syslog recognizer matches
`"XXX 12 10:15:00"` although its first three characters are not a month
abbreviation. -/
theorem claim4_counterexample :
    (timestamp_syslog "XXX 12 10:15:00").isSome = true ∧
    ¬ ("XXX 12 10:15:00".take 3 ∈ monthAbbrevs) := by
  refine ⟨rfl, by decide⟩

/-- Claim C7: a report section whose underlying collection is empty is
omitted entirely: no element of the rendered report starts with that
section's header text. (Scenario 4 — non-zero summary counts with the
error-timeline section absent — is the witness.) -/
theorem claim7_empty_sections_omitted (fp now : String) (st : State) (n : Nat) :
    (st.denied_ips = [] → ∀ l ∈ reportLines fp now st n,
      (("\n[TOP " ++ toString n ++ " IPs IN DENY/DROP ENTRIES]").data.isPrefixOf
        l.data) = false) ∧
    (st.source_ips = [] → ∀ l ∈ reportLines fp now st n,
      (("\n[TOP " ++ toString n ++ " SOURCE IPs]").data.isPrefixOf l.data) = false) ∧
    (st.dest_ips = [] → ∀ l ∈ reportLines fp now st n,
      (("\n[TOP " ++ toString n ++ " DESTINATION IPs]").data.isPrefixOf l.data) = false) ∧
    (st.ports_targeted = [] → ∀ l ∈ reportLines fp now st n,
      (("\n[TOP " ++ toString n ++ " TARGETED PORTS]").data.isPrefixOf l.data) = false) ∧
    (st.error_timeline = [] → ∀ l ∈ reportLines fp now st n,
      ("\n[ERROR TIMELINE (errors per time bucket)]".data.isPrefixOf l.data) = false) ∧
    (st.connection_errors = [] → ∀ l ∈ reportLines fp now st n,
      (("\n[CONNECTION ERRORS — showing first " ++ toString n ++ "]").data.isPrefixOf
        l.data) = false) ∧
    (st.dns_failures = [] → ∀ l ∈ reportLines fp now st n,
      (("\n[DNS FAILURES — showing first " ++ toString n ++ "]").data.isPrefixOf
        l.data) = false) ∧
    (st.high_latency = [] → ∀ l ∈ reportLines fp now st n,
      (("\n[HIGH LATENCY ENTRIES — showing first " ++ toString n ++ "]").data.isPrefixOf
        l.data) = false) ∧
    (st.packet_loss_entries = [] → ∀ l ∈ reportLines fp now st n,
      (("\n[PACKET LOSS ENTRIES — showing first " ++ toString n ++ "]").data.isPrefixOf
        l.data) = false) ∧
    (st.dhcp_events = [] → ∀ l ∈ reportLines fp now st n,
      (("\n[DHCP EVENTS — showing first " ++ toString n ++ "]").data.isPrefixOf
        l.data) = false) ∧
    (st.denied_entries = [] → ∀ l ∈ reportLines fp now st n,
      (("\n[FIREWALL DENY/DROP SAMPLE — showing first " ++ toString n ++ "]").data.isPrefixOf
        l.data) = false) := by
  refine ⟨?_, ?_, ?_, ?_, ?_, ?_, ?_, ?_, ?_, ?_, ?_⟩ <;>
    · intro hempty l hl
      rcases reportLines_shape fp now st n l hl with
        hno | rfl | rfl | ⟨hg, rfl⟩ | ⟨hg, rfl⟩ | ⟨hg, rfl⟩ | ⟨hg, rfl⟩ |
        ⟨hg, rfl⟩ | ⟨hg, rfl⟩ | ⟨hg, rfl⟩ | ⟨hg, rfl⟩ | ⟨hg, rfl⟩ |
        ⟨hg, rfl⟩ | ⟨hg, rfl⟩
      all_goals first
        | exact nl_pre_false _ _ hno
        | (rw [hempty] at hg; simp at hg)
        | (simp only [String.data_append, isPrefixOf_append_same]
           first | rfl | (simp only [List.append_assoc]; rfl))
        | rfl

/-- Witness for C7, the spec's Scenario 4: a two-line file with a deny
line and a connection-error line but no recognizable timestamp yields
non-zero summary counts while the error-timeline section is entirely
absent from the report. -/
theorem claim7_witness :
    ∃ st, runParse ["DROP input packet", "host unreachable"] = .ok st ∧
      st.error_timeline = [] ∧
      st.denied_entries.length = 1 ∧ st.connection_errors.length = 1 ∧
      ∀ l ∈ reportLines "net.log" "2024-05-01 10:00:00" st 10,
        ("\n[ERROR TIMELINE (errors per time bucket)]".data.isPrefixOf l.data)
          = false := by
  refine ⟨_, rfl, rfl, rfl, rfl,
    (claim7_empty_sections_omitted "net.log" "2024-05-01 10:00:00" _
      10).2.2.2.2.1 rfl⟩

/-- Witness for C10 at the line `"Connection REFUSED by 10.1.1.1"`. -/
theorem claim10_witness :
    containsCI "Connection REFUSED by 10.1.1.1" "refused" = true ∧
    firewall_deny "Connection REFUSED by 10.1.1.1" = true ∧
    dns_failure "Connection REFUSED by 10.1.1.1" = true ∧
    (check_firewall ({} : State) "Connection REFUSED by 10.1.1.1" 1).denied_entries
        = [(1, "Connection REFUSED by 10.1.1.1")] ∧
    getCount (check_firewall ({} : State) "Connection REFUSED by 10.1.1.1" 1).denied_ips
        "10.1.1.1" = 1 ∧
    (check_dns ({} : State) "Connection REFUSED by 10.1.1.1" 1).dns_failures
        = [(1, "Connection REFUSED by 10.1.1.1")] := by
  have h := claim10_refused_dual ({} : State) "Connection REFUSED by 10.1.1.1" 1 (by rfl)
  exact ⟨by rfl, h.1, h.2.1, h.2.2.1.trans (by rfl),
    (h.2.2.2.1 "10.1.1.1").trans (by rfl), h.2.2.2.2.1.trans (by rfl)⟩

end NetworkLog
